import Mathlib

/-!
# social-media-lite: feed visibility, pagination and the follow graph

A shallow embedding of the Express route handlers of `server/routes/*.js`.
Collections are lists of documents in insertion order, ObjectIds are natural
numbers, and a handler is a function from the store (and the request) to a
response and the store after the request.

Modelling conventions:
* a route parameter that carries an id is the id it denotes, so the handlers'
  comparisons of `toString()` forms are comparisons of ids;
* `req.user` is a parameter of each handler (`none` for an anonymous request on
  an `optionalAuth` route);
* store operations succeed: the `catch` branches that answer 500 on a failed
  read or write are not part of the model, except where a handler itself
  dereferences a missing document;
* ObjectIds and timestamps generated while a request runs are parameters of the
  handler;
* where the order of the writes of a handler matters they are listed in program
  order (`likePostWrites`, `likeCommentWrites`, `addCommentWrites`) and shown to
  fold to the store the handler returns;
* a router is the list of its routes in registration order, and a request goes
  to the first route that matches;
* schemas that are not among the sources (`models/Post`, `models/User`) enter as
  parameters: the bound on post content, the validation of a user.
-/

namespace SocialMediaLite

/-- ObjectId of a document. -/
abbrev Id := Nat

/-- User document (`models/User`): the fields the routes read or write. -/
structure User where
  _id : Id
  username : String
  email : String
  bio : String
  following : List Id
  followers : List Id
deriving DecidableEq, Repr

/-- Post document (`models/Post`). -/
structure Post where
  _id : Id
  author : Id
  content : String
  images : List String
  isPublic : Bool
  likes : List Id
  comments : List Id
  createdAt : Nat
deriving DecidableEq, Repr

/-- Comment document (`models/Comment.js`). -/
structure Comment where
  _id : Id
  author : Id
  post : Id
  content : String
  likes : List Id
  parentComment : Option Id
  replies : List Id
  createdAt : Nat
deriving DecidableEq, Repr

/-- The `type` enum of `models/Notification.js`. -/
inductive NotificationType where
  | like
  | comment
  | follow
  | mention
deriving DecidableEq, Repr

/-- Notification document (`models/Notification.js`). -/
structure Notification where
  _id : Id
  recipient : Id
  sender : Id
  type : NotificationType
  post : Option Id
  comment : Option Id
  isRead : Bool
  message : String
  createdAt : Nat
deriving DecidableEq, Repr

/-- One `io.to(room).emit(event, payload)` call. -/
structure Emit where
  room : Id
  event : String
  payload : Notification
deriving DecidableEq, Repr

/-- The four collections and the log of real-time emissions. -/
structure State where
  users : List User
  posts : List Post
  comments : List Comment
  notifications : List Notification
  emitted : List Emit
deriving DecidableEq, Repr

/-- What a handler sends: `res.status(status).json(body)`, or an error
status with its `message`. -/
inductive Response (α : Type) where
  | ok (status : Nat) (body : α)
  | error (status : Nat) (message : String)
deriving DecidableEq, Repr

/-- Body of a paginated listing. -/
structure Page (α : Type) where
  items : List α
  currentPage : Nat
  totalPages : Nat
  hasMore : Bool
deriving DecidableEq, Repr

/-! ## Store primitives -/

/-- `User.findById`. -/
def findUserById (s : State) (id : Id) : Option User :=
  s.users.find? (fun u => u._id == id)

/-- `Post.findById`. -/
def findPostById (s : State) (id : Id) : Option Post :=
  s.posts.find? (fun p => p._id == id)

/-- `Comment.findById`. -/
def findCommentById (s : State) (id : Id) : Option Comment :=
  s.comments.find? (fun c => c._id == id)

/-- `doc.save()` of a loaded user: the stored document with that `_id` is
replaced. -/
def saveUser (users : List User) (u : User) : List User :=
  users.map (fun x => if x._id = u._id then u else x)

/-- `post.save()` of a loaded post. -/
def savePost (posts : List Post) (p : Post) : List Post :=
  posts.map (fun x => if x._id = p._id then p else x)

/-- `comment.save()` of a loaded comment. -/
def saveComment (comments : List Comment) (c : Comment) : List Comment :=
  comments.map (fun x => if x._id = c._id then c else x)

/-! ## posts.js: single-post read -/

/-- `GET /posts/:postId` (posts.js 127-154). `reqUser` is `req.user` as left
by `optionalAuth`. The populated author is the stored user with the post's
author id; when there is none `post.author` is null and reading its `_id`
throws, which the handler's `catch` turns into 500. The body is the post
document (the populated sub-documents are a display join). -/
def getPost (s : State) (reqUser : Option User) (postId : Id) : Response Post :=
  match findPostById s postId with
  | none => .error 404 "Post not found"
  | some post =>
    if post.isPublic then .ok 200 post
    else
      match reqUser with
      | none => .error 403 "Access denied"
      | some u =>
        match findUserById s post.author with
        | none => .error 500 "Server error"
        | some author =>
          if author._id ≠ u._id then .error 403 "Access denied" else .ok 200 post

/-- The viewer may read the post: it is public, or the viewer is
authenticated as its author. -/
def mayRead (viewer : Option User) (p : Post) : Prop :=
  p.isPublic = true ∨ ∃ u, viewer = some u ∧ u._id = p.author

/-! ## posts.js: feeds and listings -/

/-- `.sort({ createdAt: -1 })`: newest first, ties kept in collection
order. -/
def sortCreatedAtDesc (l : List Post) : List Post :=
  l.insertionSort (fun a b => b.createdAt ≤ a.createdAt)

/-- `Math.ceil(total / limit)` for `limit ≥ 1`. -/
def mathCeilDiv (total limit : Nat) : Nat :=
  (total + limit - 1) / limit

/-- Filter of `GET /posts/feed`:
`$or: [{ author: { $in: [...following, _id] } }, { isPublic: true }]`. -/
def feedQuery (currentUser : User) (p : Post) : Bool :=
  (currentUser.following ++ [currentUser._id]).contains p.author || p.isPublic

/-- `GET /posts/feed` (posts.js 45-89) for `page ≥ 1`, `limit ≥ 1`, the values
`parseInt(..) || default` yields for a well-formed query. -/
def feed (s : State) (currentUser : User) (page limit : Nat) : Page Post :=
  let skip := (page - 1) * limit
  let posts :=
    ((sortCreatedAtDesc (s.posts.filter (feedQuery currentUser))).drop skip).take limit
  let total := (s.posts.filter (feedQuery currentUser)).length
  { items := posts
    currentPage := page
    totalPages := mathCeilDiv total limit
    hasMore := decide (page * limit < total) }

/-- `GET /posts/public` (posts.js 92-124). -/
def publicFeed (s : State) (page limit : Nat) : Page Post :=
  let skip := (page - 1) * limit
  let posts :=
    ((sortCreatedAtDesc (s.posts.filter (fun p => p.isPublic))).drop skip).take limit
  let total := (s.posts.filter (fun p => p.isPublic)).length
  { items := posts
    currentPage := page
    totalPages := mathCeilDiv total limit
    hasMore := decide (page * limit < total) }

/-- The `query` object of `GET /posts/user/:userId`: `{ author: userId }`,
with `isPublic: true` added unless the requester is that user. -/
def userPostsQuery (reqUser : Option User) (userId : Id) (p : Post) : Bool :=
  let publicOnly :=
    match reqUser with
    | none => true
    | some u => u._id != userId
  p.author == userId && (if publicOnly then p.isPublic else true)

/-- `GET /posts/user/:userId` (posts.js 268-308). -/
def userPosts (s : State) (reqUser : Option User) (userId : Id) (page limit : Nat) :
    Page Post :=
  let skip := (page - 1) * limit
  let posts :=
    ((sortCreatedAtDesc (s.posts.filter (userPostsQuery reqUser userId))).drop skip).take limit
  let total := (s.posts.filter (userPostsQuery reqUser userId)).length
  { items := posts
    currentPage := page
    totalPages := mathCeilDiv total limit
    hasMore := decide (page * limit < total) }

/-- The pages `1, 2, ..., n` of a listing, concatenated. -/
def concatPages (pageAt : Nat → Page Post) (n : Nat) : List Post :=
  ((List.range n).map (fun i => (pageAt (i + 1)).items)).flatten

/-- Newest-first order on posts. -/
def newestFirst (l : List Post) : Prop :=
  l.Sorted (fun a b => b.createdAt ≤ a.createdAt)

/-- The post belongs in the feed of `V`: it is public, or authored by a
member of `V.following ∪ {V}`. -/
def inFeedOf (V : User) (p : Post) : Prop :=
  p.isPublic = true ∨ p.author ∈ V.following ∨ p.author = V._id

instance (V : User) (p : Post) : Decidable (inFeedOf V p) := by
  unfold inFeedOf; infer_instance

/-! ## users.js: follow toggle -/

/-- Body of the follow response. -/
structure FollowBody where
  message : String
  isFollowing : Bool
deriving DecidableEq, Repr

/-- `POST /users/follow/:userId` (users.js 50-88). `currentUser` is `req.user`,
the user document the `auth` middleware loaded. -/
def follow (s : State) (currentUser : User) (userId : Id) : Response FollowBody × State :=
  if currentUser._id = userId then
    (.error 400 "You cannot follow yourself", s)
  else
    match findUserById s userId with
    | none => (.error 404 "User not found", s)
    | some userToFollow =>
      let isFollowing := currentUser.following.contains userId
      let currentUser1 : User :=
        if isFollowing then
          { currentUser with following := currentUser.following.filter (fun id => id != userId) }
        else
          { currentUser with following := currentUser.following ++ [userId] }
      let userToFollow1 : User :=
        if isFollowing then
          { userToFollow with
            followers := userToFollow.followers.filter (fun id => id != currentUser._id) }
        else
          { userToFollow with followers := userToFollow.followers ++ [currentUser._id] }
      let s1 : State := { s with users := saveUser s.users currentUser1 }
      let s2 : State := { s1 with users := saveUser s1.users userToFollow1 }
      (.ok 200
        { message := if isFollowing then "Unfollowed successfully" else "Followed successfully"
          isFollowing := !isFollowing }, s2)

/-- Modelled from the spec: the `auth` middleware (`middleware/auth`, not among
the sources). The bearer token carries a user id and is validated per request;
`req.user` is the stored user with that id, and there is none for a token that
names no user. -/
def auth (s : State) (tokenUserId : Id) : Option User :=
  findUserById s tokenUserId

/-- A follow request as the router runs it: `auth`, then the handler. -/
def followRequest (s : State) (tokenUserId userId : Id) : Response FollowBody × State :=
  match auth s tokenUserId with
  | none => (.error 401 "Unauthorized", s)
  | some currentUser => follow s currentUser userId

/-- A list of ids after a toggle of `x`: `x` filtered out when it was a member,
pushed at the end when it was not. -/
def toggled (l : List Id) (isMember : Bool) (x : Id) : List Id :=
  if isMember then l.filter (fun id => id != x) else l ++ [x]

/-- Document ids are unique in the users collection. -/
def uniqueUserIds (s : State) : Prop :=
  (s.users.map (fun u => u._id)).Nodup

/-- The follow graph is symmetric over stored users. -/
def followSymmetric (s : State) : Prop :=
  ∀ X ∈ s.users, ∀ Y ∈ s.users, (Y._id ∈ X.following ↔ X._id ∈ Y.followers)

/-- No `following` or `followers` list has a duplicate entry. -/
def followNoDup (s : State) : Prop :=
  ∀ X ∈ s.users, X.following.Nodup ∧ X.followers.Nodup

/-- No user lists itself. -/
def followNoSelf (s : State) : Prop :=
  ∀ X ∈ s.users, X._id ∉ X.following ∧ X._id ∉ X.followers

instance (s : State) : Decidable (uniqueUserIds s) := by
  unfold uniqueUserIds; infer_instance

instance (s : State) : Decidable (followSymmetric s) := by
  unfold followSymmetric; infer_instance

instance (s : State) : Decidable (followNoDup s) := by
  unfold followNoDup; infer_instance

instance (s : State) : Decidable (followNoSelf s) := by
  unfold followNoSelf; infer_instance

/-! ## posts.js, comments.js: likes and comments with their notifications -/

/-- Body of a like response. -/
structure LikeBody where
  message : String
  isLiked : Bool
  likeCount : Nat
deriving DecidableEq, Repr

/-- `notification.save()` of a new document followed by
`io.to(recipient.toString()).emit('notification', notification)`. -/
def saveAndEmit (s : State) (notification : Notification) : State :=
  { s with
    notifications := s.notifications ++ [notification]
    emitted := s.emitted ++ [⟨notification.recipient, "notification", notification⟩] }

/-- `POST /posts/:postId/like` (posts.js 219-265). `notificationId` is the
ObjectId generated for a new Notification and `now` its timestamp. -/
def likePost (s : State) (currentUser : User) (postId : Id) (notificationId : Id)
    (now : Nat) : Response LikeBody × State :=
  match findPostById s postId with
  | none => (.error 404 "Post not found", s)
  | some post =>
    let isLiked := post.likes.contains currentUser._id
    if isLiked then
      let post1 : Post :=
        { post with likes := post.likes.filter (fun id => id != currentUser._id) }
      (.ok 200 { message := "Post unliked", isLiked := !isLiked, likeCount := post1.likes.length },
       { s with posts := savePost s.posts post1 })
    else
      let post1 : Post := { post with likes := post.likes ++ [currentUser._id] }
      let s1 : State :=
        if post.author ≠ currentUser._id then
          saveAndEmit s
            { _id := notificationId
              recipient := post.author
              sender := currentUser._id
              type := .like
              post := some post._id
              comment := none
              isRead := false
              message := currentUser.username ++ " liked your post"
              createdAt := now }
        else s
      (.ok 200 { message := "Post liked", isLiked := !isLiked, likeCount := post1.likes.length },
       { s1 with posts := savePost s1.posts post1 })

/-- `POST /comments/:commentId/like` (comments.js 229-275). -/
def likeComment (s : State) (currentUser : User) (commentId : Id) (notificationId : Id)
    (now : Nat) : Response LikeBody × State :=
  match findCommentById s commentId with
  | none => (.error 404 "Comment not found", s)
  | some comment =>
    let isLiked := comment.likes.contains currentUser._id
    if isLiked then
      let comment1 : Comment :=
        { comment with likes := comment.likes.filter (fun id => id != currentUser._id) }
      (.ok 200
        { message := "Comment unliked", isLiked := !isLiked, likeCount := comment1.likes.length },
       { s with comments := saveComment s.comments comment1 })
    else
      let comment1 : Comment := { comment with likes := comment.likes ++ [currentUser._id] }
      let s1 : State :=
        if comment.author ≠ currentUser._id then
          saveAndEmit s
            { _id := notificationId
              recipient := comment.author
              sender := currentUser._id
              type := .like
              post := none
              comment := some comment._id
              isRead := false
              message := currentUser.username ++ " liked your comment"
              createdAt := now }
        else s
      (.ok 200
        { message := "Comment liked", isLiked := !isLiked, likeCount := comment1.likes.length },
       { s1 with comments := saveComment s1.comments comment1 })

/-- White space and line terminators of ECMAScript, the characters
`String.prototype.trim` strips. -/
def isJsWhitespace (c : Char) : Bool :=
  let n := c.toNat
  n == 0x09 || n == 0x0A || n == 0x0B || n == 0x0C || n == 0x0D || n == 0x20 || n == 0xA0 ||
  n == 0x1680 || (0x2000 ≤ n && n ≤ 0x200A) || n == 0x2028 || n == 0x2029 || n == 0x202F ||
  n == 0x205F || n == 0x3000 || n == 0xFEFF

/-- `String.prototype.trim`. -/
def jsTrim (str : String) : String :=
  String.mk (((str.data.dropWhile isJsWhitespace).reverse.dropWhile isJsWhitespace).reverse)

/-- `!content || content.trim().length === 0` for a body field that is absent
or a string. -/
def contentMissing (content : Option String) : Bool :=
  match content with
  | none => true
  | some c => c.isEmpty || (jsTrim c).isEmpty

/-- `String.prototype.length`: the number of UTF-16 code units. -/
def jsLength (str : String) : Nat :=
  (str.data.map (fun c => if c.toNat < 0x10000 then 1 else 2)).sum

/-- `maxlength: 500` of the `content` path of the comment schema
(Comment.js 14-18), checked by `comment.save()`. -/
def commentContentValid (content : String) : Bool :=
  decide (jsLength content ≤ 500)

/-- `POST /comments/:postId` (comments.js 10-82). `commentId` and
`notificationId` are the ObjectIds generated for the new documents, `now` their
timestamp. `comment.save()` validates the document against the schema first; a
validation error is thrown before anything is written and the handler's `catch`
answers 500. -/
def addComment (s : State) (currentUser : User) (postId : Id) (content : Option String)
    (parentCommentId : Option Id) (commentId notificationId : Id) (now : Nat) :
    Response Comment × State :=
  if contentMissing content then
    (.error 400 "Comment content is required", s)
  else
    match findPostById s postId with
    | none => (.error 404 "Post not found", s)
    | some post =>
      let parentMissing :=
        match parentCommentId with
        | some parentId => (findCommentById s parentId).isNone
        | none => false
      if parentMissing then
        (.error 404 "Parent comment not found", s)
      else
        let comment : Comment :=
          { _id := commentId
            author := currentUser._id
            post := postId
            content := jsTrim (content.getD "")
            likes := []
            parentComment := parentCommentId
            replies := []
            createdAt := now }
        if !commentContentValid comment.content then
          (.error 500 "Server error", s)
        else
        let s1 : State := { s with comments := s.comments ++ [comment] }
        let post1 : Post := { post with comments := post.comments ++ [comment._id] }
        let s2 : State := { s1 with posts := savePost s1.posts post1 }
        let s3 : State :=
          match parentCommentId with
          | some parentId =>
            { s2 with
              comments := s2.comments.map (fun c =>
                if c._id = parentId then { c with replies := c.replies ++ [comment._id] } else c) }
          | none => s2
        let s4 : State :=
          if post.author ≠ currentUser._id then
            saveAndEmit s3
              { _id := notificationId
                recipient := post.author
                sender := currentUser._id
                type := .comment
                post := some post._id
                comment := some comment._id
                isRead := false
                message := currentUser.username ++ " commented on your post"
                createdAt := now }
          else s3
        (.ok 201 comment, s4)

/-- The notification a like or comment by `actor` sends to `owner`: its
recipient, sender, type, references and unread flag. -/
def isNotificationFor (n : Notification) (owner actor : Id) (type : NotificationType)
    (post comment : Option Id) : Prop :=
  n.recipient = owner ∧ n.sender = actor ∧ n.type = type ∧ n.isRead = false ∧
  n.post = post ∧ n.comment = comment

/-- Exactly one notification was stored, and it was emitted once, to the
room named by its recipient. -/
def addsOne (s s1 : State) (n : Notification) : Prop :=
  s1.notifications = s.notifications ++ [n] ∧
  s1.emitted = s.emitted ++ [⟨n.recipient, "notification", n⟩]

/-! ## Sequences of like toggles -/

/-- One like request: the caller and the ObjectId and timestamp a new
Notification would get. -/
structure LikeCall where
  currentUser : User
  notificationId : Id
  now : Nat
deriving DecidableEq, Repr

/-- The store after the like requests `calls` on post `postId`, in order. -/
def likePostSeq (s : State) (postId : Id) : List LikeCall → State
  | [] => s
  | c :: cs => likePostSeq (likePost s c.currentUser postId c.notificationId c.now).2 postId cs

/-- The store after the like requests `calls` on comment `commentId`, in
order. -/
def likeCommentSeq (s : State) (commentId : Id) : List LikeCall → State
  | [] => s
  | c :: cs =>
    likeCommentSeq (likeComment s c.currentUser commentId c.notificationId c.now).2 commentId cs

/-- Number of requests of `calls` made by user `u`. -/
def togglesBy (calls : List LikeCall) (u : Id) : Nat :=
  calls.countP (fun c => c.currentUser._id == u)

/-- A like list after the toggles of the users `us`, in order. -/
def toggleAll (l : List Id) : List Id → List Id
  | [] => l
  | u :: us => toggleAll (toggled l (l.contains u) u) us

/-! ## posts.js: create, update, delete -/

/-- A field of `req.body`: a boolean (JSON body) or a string (form field). -/
inductive BodyValue where
  | bool (b : Bool)
  | str (s : String)
deriving DecidableEq, Repr

/-- `v === 'true'`. -/
def isTrueString (v : BodyValue) : Bool :=
  match v with
  | .str s => s == "true"
  | .bool _ => false

/-- `POST /posts` (posts.js 10-42). `isPublic` is the body field (`none` when
absent, where the destructuring default `true` applies), `files` is `req.files`,
`postId` and `now` are the ObjectId and timestamp of the new document.
Modelled from the spec: post content is of bounded length (the post schema,
`models/Post`, is not among the sources); `contentMax` is that bound, checked by
`post.save()` like the bound of the comment schema. -/
def createPost (contentMax : Nat) (s : State) (currentUser : User) (content : Option String)
    (isPublic : Option BodyValue) (files : Option (List String)) (postId : Id) (now : Nat) :
    Response Post × State :=
  let isPublic := isPublic.getD (.bool true)
  if contentMissing content then
    (.error 400 "Post content is required", s)
  else
    let images :=
      match files with
      | some fs => fs.map (fun filename => "/uploads/" ++ filename)
      | none => []
    let post : Post :=
      { _id := postId
        author := currentUser._id
        content := jsTrim (content.getD "")
        images := images
        isPublic := isTrueString isPublic
        likes := []
        comments := []
        createdAt := now }
    if jsLength post.content > contentMax then
      (.error 500 "Server error", s)
    else
      (.ok 201 post, { s with posts := s.posts ++ [post] })

/-- The submit guard of the client form (CreatePost.jsx 38-55): the request is
sent unless the content is blank and no image is selected; the content is sent
trimmed and `isPublic` as a form field. -/
def clientSubmits (content : String) (images : List String) : Bool :=
  !((jsTrim content).isEmpty && images.isEmpty)

/-- `PUT /posts/:postId` (posts.js 157-193). -/
def updatePost (contentMax : Nat) (s : State) (reqUser : User) (postId : Id)
    (content : Option String) (isPublic : Option BodyValue) : Response Post × State :=
  match findPostById s postId with
  | none => (.error 404 "Post not found", s)
  | some post =>
    if post.author ≠ reqUser._id then
      (.error 403 "Not authorized", s)
    else if content.isSome && contentMissing content then
      (.error 400 "Post content is required", s)
    else
      let post1 : Post :=
        match content with
        | some c => { post with content := jsTrim c }
        | none => post
      let post2 : Post :=
        match isPublic with
        | some v => { post1 with isPublic := isTrueString v }
        | none => post1
      if content.isSome && decide (jsLength post2.content > contentMax) then
        (.error 500 "Server error", s)
      else
        (.ok 200 post2, { s with posts := savePost s.posts post2 })

/-- `Model.findByIdAndDelete`: the first document with that `_id` is
removed. -/
def deletePostById (posts : List Post) (id : Id) : List Post :=
  posts.eraseP (fun p => p._id == id)

/-- `DELETE /posts/:postId` (posts.js 196-216). The body is the message. -/
def deletePost (s : State) (reqUser : User) (postId : Id) : Response String × State :=
  match findPostById s postId with
  | none => (.error 404 "Post not found", s)
  | some post =>
    if post.author ≠ reqUser._id then
      (.error 403 "Not authorized", s)
    else
      (.ok 200 "Post deleted successfully", { s with posts := deletePostById s.posts postId })

/-! ## comments.js: delete -/

/-- The three writes of a comment deletion (comments.js 206-219): `$pull` of the
id from the comments of the post, `$pull` from the replies of the parent when
the comment is a reply, then `findByIdAndDelete`. -/
def removeComment (s : State) (comment : Comment) : State :=
  let s1 : State :=
    { s with
      posts := s.posts.map (fun p =>
        if p._id = comment.post then
          { p with comments := p.comments.filter (fun id => id != comment._id) }
        else p) }
  let s2 : State :=
    match comment.parentComment with
    | some parentId =>
      { s1 with
        comments := s1.comments.map (fun c =>
          if c._id = parentId then
            { c with replies := c.replies.filter (fun id => id != comment._id) }
          else c) }
    | none => s1
  { s2 with comments := s2.comments.eraseP (fun c => c._id == comment._id) }

/-- `DELETE /comments/:commentId` (comments.js 191-226). When the caller is not
the author of the comment the handler reads `post.author`; for a comment whose
post is gone `post` is null, the read throws and the `catch` answers 500. -/
def deleteComment (s : State) (reqUser : User) (commentId : Id) : Response String × State :=
  match findCommentById s commentId with
  | none => (.error 404 "Comment not found", s)
  | some comment =>
    if comment.author ≠ reqUser._id then
      match findPostById s comment.post with
      | none => (.error 500 "Server error", s)
      | some post =>
        if post.author ≠ reqUser._id then
          (.error 403 "Not authorized", s)
        else
          (.ok 200 "Comment deleted successfully", removeComment s comment)
    else
      (.ok 200 "Comment deleted successfully", removeComment s comment)

/-- Document ids are unique in the posts collection. -/
def uniquePostIds (s : State) : Prop :=
  (s.posts.map (fun p => p._id)).Nodup

/-- Document ids are unique in the comments collection. -/
def uniqueCommentIds (s : State) : Prop :=
  (s.comments.map (fun c => c._id)).Nodup

instance (s : State) : Decidable (uniquePostIds s) := by
  unfold uniquePostIds; infer_instance

instance (s : State) : Decidable (uniqueCommentIds s) := by
  unfold uniqueCommentIds; infer_instance

/-! ## notifications.js -/

/-- `Notification.findById`. -/
def findNotificationById (s : State) (id : Id) : Option Notification :=
  s.notifications.find? (fun n => n._id == id)

/-- `countDocuments({ recipient, isRead: false })`, the `unreadCount` of
`GET /notifications` (notifications.js 23-26) and of `GET /unread-count`. -/
def unreadCount (s : State) (currentUser : User) : Nat :=
  (s.notifications.filter (fun n => n.recipient == currentUser._id && n.isRead == false)).length

/-- `notification.markAsRead()` (Notification.js 45-49): `isRead = true`, then
`save()`. -/
def markAsRead (notifications : List Notification) (n : Notification) : List Notification :=
  notifications.map (fun x => if x._id = n._id then { n with isRead := true } else x)

/-- `PUT /notifications/:notificationId/read` (notifications.js 42-65). -/
def markNotificationRead (s : State) (reqUser : User) (notificationId : Id) :
    Response Notification × State :=
  match findNotificationById s notificationId with
  | none => (.error 404 "Notification not found", s)
  | some notification =>
    if notification.recipient ≠ reqUser._id then
      (.error 403 "Not authorized", s)
    else
      (.ok 200 { notification with isRead := true },
       { s with notifications := markAsRead s.notifications notification })

/-- `DELETE /notifications/:notificationId` (notifications.js 85-105). -/
def deleteNotification (s : State) (reqUser : User) (notificationId : Id) :
    Response String × State :=
  match findNotificationById s notificationId with
  | none => (.error 404 "Notification not found", s)
  | some notification =>
    if notification.recipient ≠ reqUser._id then
      (.error 403 "Not authorized", s)
    else
      (.ok 200 "Notification deleted successfully",
       { s with
         notifications := s.notifications.eraseP (fun n => n._id == notificationId) })

/-- `PUT /notifications/read-all` (notifications.js 68-82):
`updateMany({ recipient, isRead: false }, { isRead: true })`. -/
def markAllRead (s : State) (currentUser : User) : Response String × State :=
  (.ok 200 "All notifications marked as read",
   { s with
     notifications := s.notifications.map (fun n =>
       if n.recipient = currentUser._id ∧ n.isRead = false then { n with isRead := true }
       else n) })

/-- `DELETE /notifications/delete-all` (notifications.js 124-135):
`deleteMany({ recipient })`. -/
def deleteAllNotifications (s : State) (currentUser : User) : Response String × State :=
  (.ok 200 "All notifications deleted successfully",
   { s with notifications := s.notifications.filter (fun n => n.recipient != currentUser._id) })

/-! ## The writes of a like or comment request, in program order -/

/-- One awaited write (or emission) of a handler. -/
inductive Write where
  | insertNotification (n : Notification)
  | emit (e : Emit)
  | savePost (p : Post)
  | saveComment (c : Comment)
  | insertComment (c : Comment)
  | pushReply (parentId commentId : Id)
deriving DecidableEq, Repr

/-- Effect of one write on the store. -/
def applyWrite (s : State) : Write → State
  | .insertNotification n => { s with notifications := s.notifications ++ [n] }
  | .emit e => { s with emitted := s.emitted ++ [e] }
  | .savePost p => { s with posts := savePost s.posts p }
  | .saveComment c => { s with comments := saveComment s.comments c }
  | .insertComment c => { s with comments := s.comments ++ [c] }
  | .pushReply parentId commentId =>
    { s with
      comments := s.comments.map (fun c =>
        if c._id = parentId then { c with replies := c.replies ++ [commentId] } else c) }

/-- The store when the write number `k` (from 0) of `writes` throws: the writes
before it took effect, it and the later ones did not. -/
def storeAtFailure (s : State) (writes : List Write) (k : Nat) : State :=
  (writes.take k).foldl applyWrite s

/-- The writes of `POST /posts/:postId/like` in the order of the statements
(posts.js 230-254): for a like, `notification.save()` (246) and the emit (250)
come before `post.save()` (254). -/
def likePostWrites (s : State) (currentUser : User) (postId : Id) (notificationId : Id)
    (now : Nat) : List Write :=
  match findPostById s postId with
  | none => []
  | some post =>
    if post.likes.contains currentUser._id then
      [.savePost { post with likes := post.likes.filter (fun id => id != currentUser._id) }]
    else
      let notification : Notification :=
        { _id := notificationId
          recipient := post.author
          sender := currentUser._id
          type := .like
          post := some post._id
          comment := none
          isRead := false
          message := currentUser.username ++ " liked your post"
          createdAt := now }
      (if post.author ≠ currentUser._id then
        [.insertNotification notification, .emit ⟨post.author, "notification", notification⟩]
       else []) ++
      [.savePost { post with likes := post.likes ++ [currentUser._id] }]

/-- The writes of `POST /comments/:commentId/like` (comments.js 240-264), in
order. -/
def likeCommentWrites (s : State) (currentUser : User) (commentId : Id) (notificationId : Id)
    (now : Nat) : List Write :=
  match findCommentById s commentId with
  | none => []
  | some comment =>
    if comment.likes.contains currentUser._id then
      [.saveComment
        { comment with likes := comment.likes.filter (fun id => id != currentUser._id) }]
    else
      let notification : Notification :=
        { _id := notificationId
          recipient := comment.author
          sender := currentUser._id
          type := .like
          post := none
          comment := some comment._id
          isRead := false
          message := currentUser.username ++ " liked your comment"
          createdAt := now }
      (if comment.author ≠ currentUser._id then
        [.insertNotification notification, .emit ⟨comment.author, "notification", notification⟩]
       else []) ++
      [.saveComment { comment with likes := comment.likes ++ [currentUser._id] }]

/-- The writes of `POST /comments/:postId` (comments.js 41-72), in order:
`comment.save()`, `post.save()`, the push into the parent, and only then the
notification and its emit. -/
def addCommentWrites (s : State) (currentUser : User) (postId : Id) (content : Option String)
    (parentCommentId : Option Id) (commentId notificationId : Id) (now : Nat) : List Write :=
  if contentMissing content then []
  else
    match findPostById s postId with
    | none => []
    | some post =>
      let parentMissing :=
        match parentCommentId with
        | some parentId => (findCommentById s parentId).isNone
        | none => false
      if parentMissing then []
      else
        let comment : Comment :=
          { _id := commentId
            author := currentUser._id
            post := postId
            content := jsTrim (content.getD "")
            likes := []
            parentComment := parentCommentId
            replies := []
            createdAt := now }
        if !commentContentValid comment.content then []
        else
          let notification : Notification :=
            { _id := notificationId
              recipient := post.author
              sender := currentUser._id
              type := .comment
              post := some post._id
              comment := some comment._id
              isRead := false
              message := currentUser.username ++ " commented on your post"
              createdAt := now }
          [.insertComment comment,
           .savePost { post with comments := post.comments ++ [comment._id] }] ++
          (match parentCommentId with
           | some parentId => [.pushReply parentId comment._id]
           | none => []) ++
          (if post.author ≠ currentUser._id then
            [.insertNotification notification,
             .emit ⟨post.author, "notification", notification⟩]
           else [])

/-! ## Route tables -/

/-- HTTP method of a route. -/
inductive Method where
  | GET
  | POST
  | PUT
  | DELETE
deriving DecidableEq, Repr

/-- Segment of a route path: a literal, or a `:param`. -/
inductive Segment where
  | lit (text : String)
  | param (name : String)
deriving DecidableEq, Repr

/-- Whether a route path matches the segments of a request path: the same
number of segments, a literal equal to its segment, a parameter bound to any
non-empty segment. -/
def pathMatches : List Segment → List String → Bool
  | [], [] => true
  | .lit text :: ps, seg :: segs => text == seg && pathMatches ps segs
  | .param _ :: ps, seg :: segs => !seg.isEmpty && pathMatches ps segs
  | _, _ => false

/-- A registered route. -/
structure Route (H : Type) where
  method : Method
  path : List Segment
  handler : H

/-- The handler of the first registered route whose method and path match
(no handler of these routers calls `next`). -/
def dispatch {H : Type} (routes : List (Route H)) (method : Method) (path : List String) :
    Option H :=
  (routes.find? (fun r => r.method == method && pathMatches r.path path)).map (fun r => r.handler)

/-- Handlers of notifications.js. -/
inductive NotificationHandler where
  | list
  | markRead
  | readAll
  | deleteOne
  | unreadCount
  | deleteAll
deriving DecidableEq, Repr

/-- The routes of notifications.js in registration order (lines 7, 42, 68, 85,
108, 124). -/
def notificationRoutes : List (Route NotificationHandler) :=
  [⟨.GET, [], .list⟩,
   ⟨.PUT, [.param "notificationId", .lit "read"], .markRead⟩,
   ⟨.PUT, [.lit "read-all"], .readAll⟩,
   ⟨.DELETE, [.param "notificationId"], .deleteOne⟩,
   ⟨.GET, [.lit "unread-count"], .unreadCount⟩,
   ⟨.DELETE, [.lit "delete-all"], .deleteAll⟩]

/-- Handlers of users.js. -/
inductive UserHandler where
  | profile
  | byId
  | follow
  | followers
  | following
  | search
  | suggested
deriving DecidableEq, Repr

/-- The routes of users.js in registration order (lines 8, 34, 50, 91, 109, 127,
147). -/
def userRoutes : List (Route UserHandler) :=
  [⟨.GET, [.lit "profile", .param "username"], .profile⟩,
   ⟨.GET, [.param "userId"], .byId⟩,
   ⟨.POST, [.lit "follow", .param "userId"], .follow⟩,
   ⟨.GET, [.param "userId", .lit "followers"], .followers⟩,
   ⟨.GET, [.param "userId", .lit "following"], .following⟩,
   ⟨.GET, [.lit "search", .param "query"], .search⟩,
   ⟨.GET, [.lit "suggested"], .suggested⟩]

/-- Handlers of posts.js. -/
inductive PostHandler where
  | create
  | feed
  | publicFeed
  | getOne
  | update
  | delete
  | like
  | userPosts
deriving DecidableEq, Repr

/-- The routes of posts.js in registration order (lines 10, 45, 92, 127, 157,
196, 219, 268): the literal paths `/feed` and `/public` come before
`/:postId`. -/
def postRoutes : List (Route PostHandler) :=
  [⟨.POST, [], .create⟩,
   ⟨.GET, [.lit "feed"], .feed⟩,
   ⟨.GET, [.lit "public"], .publicFeed⟩,
   ⟨.GET, [.param "postId"], .getOne⟩,
   ⟨.PUT, [.param "postId"], .update⟩,
   ⟨.DELETE, [.param "postId"], .delete⟩,
   ⟨.POST, [.param "postId", .lit "like"], .like⟩,
   ⟨.GET, [.lit "user", .param "userId"], .userPosts⟩]

/-! ## PostCard.jsx: the like button -/

/-- The two pieces of component state `handleLike` touches. -/
structure LikeState where
  liked : Bool
  likeCount : Int
deriving DecidableEq, Repr

/-- `handleLike` (PostCard.jsx 25-41). `liked` inside the handler is the value
the render captured, so every `!liked` and every `liked ? .. : ..` reads the
state from before the click; `setLikeCount(prev => ..)` applies to the current
count. `response` is `none` when the request throws, and the `likeCount` and
`isLiked` of the response body otherwise. -/
def handleLike (userPresent : Bool) (st : LikeState) (response : Option (Int × Bool)) :
    LikeState :=
  if !userPresent then st
  else
    let liked := st.liked
    let st1 : LikeState := { st with liked := !liked }
    let st2 : LikeState :=
      { st1 with likeCount := if liked then st1.likeCount - 1 else st1.likeCount + 1 }
    match response with
    | some (likeCount, isLiked) =>
      let st3 : LikeState := { st2 with likeCount := likeCount }
      { st3 with liked := isLiked }
    | none =>
      let st3 : LikeState := { st2 with liked := !liked }
      { st3 with likeCount := if liked then st3.likeCount + 1 else st3.likeCount - 1 }

/-! ## users.js: suggested users -/

/-- Key of an array field in a descending MongoDB sort: the largest element of
the array decides, and an empty array sorts after every non-empty one. Encoded
as 0 for the empty array and `max + 1` otherwise. -/
def arraySortKeyDesc (l : List Id) : Nat :=
  l.foldl (fun acc x => max acc (x + 1)) 0

/-- `.sort({ followers: -1 })`: `followers` is the array of follower ids, so
the order is by the key above, ties kept in collection order. -/
def sortFollowersDesc (l : List User) : List User :=
  l.insertionSort (fun a b => arraySortKeyDesc b.followers ≤ arraySortKeyDesc a.followers)

/-- `GET /users/suggested` (users.js 147-164): the users whose id is not in
`[...following, _id]`, sorted, the first 5 (a query applies its sort before its
limit, whatever the order of the calls). -/
def suggestedUsers (s : State) (currentUser : User) : Response (List User) :=
  .ok 200
    ((sortFollowersDesc
      (s.users.filter (fun u =>
        !(currentUser.following ++ [currentUser._id]).contains u._id))).take 5)

/-! ## auth.js: register and profile update -/

/-- `POST /auth/register` (auth.js 9-49). `userId` is the ObjectId of the new
document; the body is the new user (the token is not modelled).
Modelled from the spec: the user schema (`models/User`) is not among the
sources; `valid` stands for its validation of the submitted fields in
`user.save()`, and a new user starts with an empty bio and empty follow lists. -/
def register (valid : String → String → String → Bool) (s : State)
    (username email password : String) (userId : Id) : Response User × State :=
  match s.users.find? (fun u => u.email == email || u.username == username) with
  | some existingUser =>
    (.error 400
      (if existingUser.email = email then "Email already registered"
       else "Username already taken"), s)
  | none =>
    if !valid username email password then
      (.error 500 "Server error", s)
    else
      let user : User :=
        { _id := userId
          username := username
          email := email
          bio := ""
          following := []
          followers := [] }
      (.ok 201 user, { s with users := s.users ++ [user] })

/-- `PUT /auth/profile` (auth.js 102-132), without the picture. `user` is
`req.user`; a `username` that is absent or empty is falsy. `validUser` stands
for the validation of the absent user schema in `user.save()`. -/
def updateProfile (validUser : User → Bool) (s : State) (user : User)
    (username bio : Option String) : Response User × State :=
  let existingUser : Option User :=
    match username with
    | some n =>
      if !n.isEmpty && n != user.username then s.users.find? (fun u => u.username == n)
      else none
    | none => none
  if existingUser.isSome then
    (.error 400 "Username already taken", s)
  else
    let user1 : User :=
      match username with
      | some n => if !n.isEmpty then { user with username := n } else user
      | none => user
    let user2 : User :=
      match bio with
      | some b => { user1 with bio := b }
      | none => user1
    if !validUser user2 then
      (.error 500 "Server error", s)
    else
      (.ok 200 user2, { s with users := saveUser s.users user2 })

/-- Usernames are pairwise distinct and emails are pairwise distinct. -/
def identitiesDistinct (s : State) : Prop :=
  (s.users.map (fun u => u.username)).Nodup ∧ (s.users.map (fun u => u.email)).Nodup

instance (s : State) : Decidable (identitiesDistinct s) := by
  unfold identitiesDistinct; infer_instance

/-! ## Two like requests on one post, step by step -/

/-- The stored post as the like handler sees it: its `likes` and its version
key `__v`. -/
structure LikesDoc where
  likes : List Id
  version : Nat
deriving DecidableEq, Repr

/-- What a like request holds between `Post.findById` (posts.js 221) and
`post.save()` (254): the caller, the version it read, whether the caller was in
the list it read, and the list as changed in memory (232 or 235). -/
structure PendingLike where
  user : Id
  readVersion : Nat
  wasLiked : Bool
  newLikes : List Id
deriving DecidableEq, Repr

/-- How `post.save()` behaves when the stored document changed after the read:
`overwrite` writes the in-memory list whatever is stored; `versioned` is the
document-versioning of the object mapper, where a pushed element is appended to
the stored list and a reassigned list is written only if the stored version is
still the version read (otherwise the save throws and the answer is 500). -/
inductive SaveSemantics where
  | overwrite
  | versioned
deriving DecidableEq, Repr

/-- The read and the in-memory change of a like request. -/
def readLike (d : LikesDoc) (u : Id) : PendingLike :=
  { user := u
    readVersion := d.version
    wasLiked := d.likes.contains u
    newLikes := toggled d.likes (d.likes.contains u) u }

/-- The save of a like request. -/
def saveLike (sem : SaveSemantics) (d : LikesDoc) (p : PendingLike) : LikesDoc :=
  match sem with
  | .overwrite => { likes := p.newLikes, version := d.version + 1 }
  | .versioned =>
    if p.wasLiked then
      if d.version = p.readVersion then { likes := p.newLikes, version := d.version + 1 }
      else d
    else
      { likes := d.likes ++ [p.user], version := d.version + 1 }

/-- A step of one of two requests in flight. -/
inductive LikeStep where
  | readFirst
  | saveFirst
  | readSecond
  | saveSecond
deriving DecidableEq, Repr

/-- The stored document and what each of the two requests holds. -/
structure TwoLikes where
  doc : LikesDoc
  first : Option PendingLike
  second : Option PendingLike
deriving DecidableEq, Repr

/-- One step of the requests of users `u` (first) and `v` (second). A save
before the read of the same request does nothing. -/
def stepLikes (sem : SaveSemantics) (u v : Id) (st : TwoLikes) : LikeStep → TwoLikes
  | .readFirst => { st with first := some (readLike st.doc u) }
  | .readSecond => { st with second := some (readLike st.doc v) }
  | .saveFirst =>
    match st.first with
    | some p => { st with doc := saveLike sem st.doc p, first := none }
    | none => st
  | .saveSecond =>
    match st.second with
    | some p => { st with doc := saveLike sem st.doc p, second := none }
    | none => st

/-- The likes stored after a schedule of steps. -/
def runLikes (sem : SaveSemantics) (u v : Id) (d : LikesDoc) (schedule : List LikeStep) :
    List Id :=
  (schedule.foldl (stepLikes sem u v) ⟨d, none, none⟩).doc.likes

/-! ## users.js: search -/

/-- Characters with a special meaning in a regular expression:
backslash, caret, dollar, dot, bar, question mark, star, plus, the round,
square and curly brackets. -/
def isRegexMeta (c : Char) : Bool :=
  [92, 94, 36, 46, 124, 63, 42, 43, 40, 41, 91, 93, 123, 125].contains c.toNat

/-- An atom of a pattern: the dot, or a literal character. -/
inductive RegexAtom where
  | anyChar
  | lit (c : Char)
deriving DecidableEq, Repr

/-- The atoms of a pattern made of literal characters and dots; `none` for a
pattern with any other metacharacter, which this model of the regular
expressions of the database does not cover. -/
def parsePattern : List Char → Option (List RegexAtom)
  | [] => some []
  | c :: cs =>
    if c.toNat == 46 then (parsePattern cs).map (fun atoms => RegexAtom.anyChar :: atoms)
    else if isRegexMeta c then none
    else (parsePattern cs).map (fun atoms => RegexAtom.lit c :: atoms)

/-- One atom against one character under the option `i`: the dot matches
every character but the line feed, a literal matches up to the case of the
letters A to Z. -/
def atomMatches : RegexAtom → Char → Bool
  | .anyChar, c => c.toNat != 10
  | .lit x, c => x.toLower == c.toLower

/-- The atoms match at the start of the text. -/
def matchesHere : List RegexAtom → List Char → Bool
  | [], _ => true
  | _ :: _, [] => false
  | a :: atoms, c :: cs => atomMatches a c && matchesHere atoms cs

/-- `$regex` is not anchored: the atoms match somewhere in the text. -/
def regexSearch (atoms : List RegexAtom) : List Char → Bool
  | [] => matchesHere atoms []
  | c :: cs => matchesHere atoms (c :: cs) || regexSearch atoms cs

/-- `GET /users/search/:query` (users.js 127-144): the first 10 users, in
collection order, whose username or bio matches `{ $regex: query, $options:
'i' }`. The query is the pattern itself. `none` when the pattern is outside the
modelled ones. -/
def searchUsers (s : State) (query : String) : Option (Response (List User)) :=
  (parsePattern query.data).map (fun atoms =>
    .ok 200
      ((s.users.filter (fun u =>
        regexSearch atoms u.username.data || regexSearch atoms u.bio.data)).take 10))

/-- The text contains `q` as a substring, up to the case of letters. -/
def containsIgnoreCase (text q : String) : Prop :=
  ∃ before mid after, text.data = before ++ mid ++ after ∧
    mid.map Char.toLower = q.data.map Char.toLower

/-! ## Example stores -/

/-- Users of the example store: alice (1), bob (2, follows alice), carol (3). -/
def alice : User := ⟨1, "alice", "a@x.com", "", [], [2]⟩

def bob : User := ⟨2, "bob", "b@x.com", "", [1], []⟩

def carol : User := ⟨3, "carol", "c@x.com", "", [], []⟩

/-- Example store: alice has a private post (10) and a public post (11),
carol a public post (12), bob a private post (13). -/
def exampleStore : State :=
  { users := [alice, bob, carol]
    posts := [⟨10, 1, "secret", [], false, [], [], 5⟩, ⟨11, 1, "hello", [], true, [], [], 6⟩,
              ⟨12, 3, "hi", [], true, [], [], 6⟩, ⟨13, 2, "draft", [], false, [], [], 7⟩]
    comments := []
    notifications := []
    emitted := [] }

/-- The example store after bob (2) commented on alice's post 11 (comment 50)
and carol (3) replied to that comment (comment 51). -/
def commentStore : State :=
  (addComment (addComment exampleStore bob 11 (some "c1") none 50 100 9).2 carol 11
    (some "r1") (some 50) 51 101 9).2

/-- The store `commentStore` after alice deleted her post 11: the comments 50
and 51 refer to a post that is gone. -/
def orphanStore : State :=
  (deletePost commentStore alice 11).2

/-- A comment text of 501 characters. -/
def longContent : String :=
  String.mk (List.replicate 501 'a')

/-- The example store after bob liked alice's post 11 (notification 100 to
alice) and alice liked carol's post 12 (notification 101 to carol). -/
def notifiedStore : State :=
  (likePost (likePost exampleStore bob 11 100 9).2 alice 12 101 10).2

/-- A store of eight users: 3, 4 and 5 follow 2; 8 follows 3, 4, 5, 6 and 7. So
user 2 has three followers, users 3 to 7 one each, users 1 and 8 none. -/
def popularStore : State :=
  { users := [⟨1, "u1", "u1@x.com", "", [], []⟩,
              ⟨2, "u2", "u2@x.com", "", [], [3, 4, 5]⟩,
              ⟨3, "u3", "u3@x.com", "", [2], [8]⟩,
              ⟨4, "u4", "u4@x.com", "", [2], [8]⟩,
              ⟨5, "u5", "u5@x.com", "", [2], [8]⟩,
              ⟨6, "u6", "u6@x.com", "", [], [8]⟩,
              ⟨7, "u7", "u7@x.com", "", [], [8]⟩,
              ⟨8, "u8", "u8@x.com", "", [3, 4, 5, 6, 7], []⟩]
    posts := []
    comments := []
    notifications := []
    emitted := [] }

/-! ## Lemmas on the store primitives -/

theorem findUserById_id {s : State} {id : Id} {u : User}
    (h : findUserById s id = some u) : u._id = id := by
  have := List.find?_some h
  simpa using this

theorem findUserById_mem {s : State} {id : Id} {u : User}
    (h : findUserById s id = some u) : u ∈ s.users :=
  List.mem_of_find?_eq_some h

/-! ## Lemmas on skip/limit pagination -/

theorem flatten_pages_eq_take {α : Type} (l : List α) (limit n : Nat) :
    ((List.range n).map (fun i => (l.drop (i * limit)).take limit)).flatten
      = l.take (n * limit) := by
  induction n with
  | zero => simp
  | succ n ih =>
    rw [List.range_succ, List.map_append, List.flatten_append, ih]
    simp only [List.map_cons, List.map_nil, List.flatten_cons, List.flatten_nil,
      List.append_nil]
    rw [Nat.succ_mul, List.take_add]

theorem le_mathCeilDiv_mul (total limit : Nat) (hl : 1 ≤ limit) :
    total ≤ mathCeilDiv total limit * limit := by
  unfold mathCeilDiv
  have h1 := Nat.div_add_mod (total + limit - 1) limit
  have h2 := Nat.mod_lt (total + limit - 1) (show limit > 0 by omega)
  have h3 : limit * ((total + limit - 1) / limit) = (total + limit - 1) / limit * limit :=
    Nat.mul_comm _ _
  omega

theorem lt_mathCeilDiv_iff (total page limit : Nat) (hl : 1 ≤ limit) :
    page < mathCeilDiv total limit ↔ page * limit < total := by
  unfold mathCeilDiv
  rw [Nat.lt_iff_add_one_le, Nat.le_div_iff_mul_le (by omega), Nat.succ_mul]
  omega

theorem flatten_all_pages {α : Type} (l : List α) (limit : Nat) (hl : 1 ≤ limit) :
    ((List.range (mathCeilDiv l.length limit)).map
        (fun i => (l.drop ((i + 1 - 1) * limit)).take limit)).flatten = l := by
  have h := flatten_pages_eq_take l limit (mathCeilDiv l.length limit)
  simp only [Nat.add_sub_cancel]
  rw [h]
  exact List.take_of_length_le (le_mathCeilDiv_mul _ _ hl)

theorem mem_some_page {α : Type} (l : List α) (limit : Nat) (hl : 1 ≤ limit) (a : α)
    (ha : a ∈ l) : ∃ page, 1 ≤ page ∧ a ∈ (l.drop ((page - 1) * limit)).take limit := by
  have h := flatten_all_pages l limit hl
  rw [← h] at ha
  simp only [List.mem_flatten, List.mem_map, List.mem_range] at ha
  obtain ⟨pg, ⟨i, _, rfl⟩, hmem⟩ := ha
  exact ⟨i + 1, by omega, hmem⟩

theorem sortCreatedAtDesc_perm (l : List Post) : (sortCreatedAtDesc l).Perm l :=
  List.perm_insertionSort _ l

theorem sortCreatedAtDesc_sorted (l : List Post) : newestFirst (sortCreatedAtDesc l) := by
  unfold newestFirst sortCreatedAtDesc
  haveI : IsTotal Post (fun a b => b.createdAt ≤ a.createdAt) :=
    ⟨fun a b => Nat.le_total b.createdAt a.createdAt⟩
  haveI : IsTrans Post (fun a b => b.createdAt ≤ a.createdAt) :=
    ⟨fun a b c hab hbc => Nat.le_trans hbc hab⟩
  exact List.sorted_insertionSort _ l

theorem newestFirst_page {l : List Post} (h : newestFirst l) (skip limit : Nat) :
    newestFirst ((l.drop skip).take limit) := by
  unfold newestFirst at *
  exact (h.sublist (List.drop_sublist _ _)).sublist (List.take_sublist _ _)

theorem mem_page {α : Type} {l : List α} {skip limit : Nat} {a : α}
    (h : a ∈ (l.drop skip).take limit) : a ∈ l :=
  List.mem_of_mem_drop (List.mem_of_mem_take h)

/-! ## Theorems -/

/-- C1: for a stored post whose author is a stored user, the single-post read
returns the post exactly when it is public or the viewer is its author, answers
403 in every other case, and answers 404 for an id no post has. -/
theorem getPost_visibility (s : State) (viewer : Option User) (P : Post)
    (hP : findPostById s P._id = some P)
    (hA : ∃ a, findUserById s P.author = some a) :
    (getPost s viewer P._id = .ok 200 P ↔ mayRead viewer P) ∧
    (¬ mayRead viewer P → getPost s viewer P._id = .error 403 "Access denied") ∧
    (∀ postId, findPostById s postId = none →
      getPost s viewer postId = .error 404 "Post not found") := by
  obtain ⟨a, ha⟩ := hA
  have haid := findUserById_id ha
  refine ⟨?_, ?_, ?_⟩
  · unfold getPost mayRead
    rw [hP]
    by_cases hpub : P.isPublic = true
    · simp [hpub]
    · cases viewer with
      | none => simp [hpub]
      | some u =>
        simp only [hpub, ha, haid]
        by_cases hu : P.author = u._id
        · simp [hu]
        · have hu2 : ¬ u._id = P.author := fun h => hu h.symm
          simp [hu, hu2]
  · intro hno
    unfold mayRead at hno
    push_neg at hno
    unfold getPost
    rw [hP]
    have hpub : ¬ P.isPublic = true := hno.1
    cases viewer with
    | none => simp [hpub]
    | some u =>
      have hu : ¬ P.author = u._id := fun h => hno.2 u rfl h.symm
      simp [hpub, ha, haid, hu]
  · intro postId hnone
    unfold getPost
    rw [hnone]

theorem getPost_visibility_witness :
    (getPost exampleStore (some bob) 10 = .ok 200 ⟨10, 1, "secret", [], false, [], [], 5⟩
      ↔ mayRead (some bob) ⟨10, 1, "secret", [], false, [], [], 5⟩) ∧
    (¬ mayRead (some bob) ⟨10, 1, "secret", [], false, [], [], 5⟩ →
      getPost exampleStore (some bob) 10 = .error 403 "Access denied") ∧
    (∀ postId, findPostById exampleStore postId = none →
      getPost exampleStore (some bob) postId = .error 404 "Post not found") :=
  getPost_visibility exampleStore (some bob) ⟨10, 1, "secret", [], false, [], [], 5⟩
    (by decide) ⟨alice, by decide⟩

/-- C2 (failing input): bob follows alice; page 1 of bob's feed contains
alice's private post 10, which the single-post read refuses to bob with 403. -/
theorem feed_shows_followed_private_post :
    (⟨10, 1, "secret", [], false, [], [], 5⟩ : Post) ∈ (feed exampleStore bob 1 10).items ∧
    (⟨10, 1, "secret", [], false, [], [], 5⟩ : Post).isPublic = false ∧
    (⟨10, 1, "secret", [], false, [], [], 5⟩ : Post).author ≠ bob._id ∧
    getPost exampleStore (some bob) 10 = .error 403 "Access denied" := by
  decide

theorem feedQuery_eq (V : User) (p : Post) : feedQuery V p = decide (inFeedOf V p) := by
  unfold feedQuery inFeedOf
  rw [Bool.eq_iff_iff]
  simp only [Bool.or_eq_true, List.contains_eq_any_beq, List.any_eq_true, beq_iff_eq,
    List.mem_append, List.mem_singleton, decide_eq_true_eq]
  constructor
  · rintro (⟨x, hx, rfl⟩ | h)
    · exact Or.inr hx
    · exact Or.inl h
  · rintro (h | h)
    · exact Or.inr h
    · exact Or.inl ⟨p.author, h, rfl⟩

theorem concatPages_eq (l : List Post) (pageAt : Nat → Page Post) (limit : Nat)
    (hl : 1 ≤ limit)
    (hitems : ∀ page, (pageAt page).items = (l.drop ((page - 1) * limit)).take limit) :
    concatPages pageAt (mathCeilDiv l.length limit) = l := by
  unfold concatPages
  have h := flatten_all_pages l limit hl
  simp only [hitems]
  exact h

/-- C3: for `limit ≥ 1`, the feed pages `1 .. totalPages` of viewer `V`,
concatenated, are a permutation of the stored posts that are public or authored
by a member of `V.following ∪ {V}` (each such post once, no other post), newest
first; the anonymous feed satisfies the same with the predicate "is public". -/
theorem feed_pages_complete (s : State) (V : User) (limit : Nat) (hl : 1 ≤ limit) :
    ((concatPages (fun page => feed s V page limit) (feed s V 1 limit).totalPages).Perm
        (s.posts.filter (fun p => decide (inFeedOf V p))) ∧
      newestFirst (concatPages (fun page => feed s V page limit) (feed s V 1 limit).totalPages) ∧
      (s.posts.Nodup →
        (concatPages (fun page => feed s V page limit) (feed s V 1 limit).totalPages).Nodup)) ∧
    ((concatPages (fun page => publicFeed s page limit) (publicFeed s 1 limit).totalPages).Perm
        (s.posts.filter (fun p => p.isPublic)) ∧
      newestFirst
        (concatPages (fun page => publicFeed s page limit) (publicFeed s 1 limit).totalPages) ∧
      (s.posts.Nodup →
        (concatPages (fun page => publicFeed s page limit)
          (publicFeed s 1 limit).totalPages).Nodup)) := by
  have hq : (fun p => decide (inFeedOf V p)) = feedQuery V := by
    funext p; exact (feedQuery_eq V p).symm
  have key : ∀ (q : Post → Bool) (pageAt : Nat → Page Post),
      (∀ page, (pageAt page).items
        = ((sortCreatedAtDesc (s.posts.filter q)).drop ((page - 1) * limit)).take limit) →
      (pageAt 1).totalPages = mathCeilDiv (s.posts.filter q).length limit →
      (concatPages pageAt (pageAt 1).totalPages).Perm (s.posts.filter q) ∧
      newestFirst (concatPages pageAt (pageAt 1).totalPages) ∧
      (s.posts.Nodup → (concatPages pageAt (pageAt 1).totalPages).Nodup) := by
    intro q pageAt hitems htotal
    have hlen : (s.posts.filter q).length = (sortCreatedAtDesc (s.posts.filter q)).length :=
      (sortCreatedAtDesc_perm _).length_eq.symm
    have hc : concatPages pageAt (pageAt 1).totalPages
        = sortCreatedAtDesc (s.posts.filter q) := by
      rw [htotal, hlen]
      exact concatPages_eq _ pageAt limit hl hitems
    rw [hc]
    refine ⟨sortCreatedAtDesc_perm _, sortCreatedAtDesc_sorted _, fun hnd => ?_⟩
    exact (sortCreatedAtDesc_perm _).nodup_iff.mpr (hnd.filter _)
  refine ⟨?_, ?_⟩
  · rw [hq]
    exact key (feedQuery V) (fun page => feed s V page limit) (fun _ => rfl) rfl
  · exact key (fun p => p.isPublic) (fun page => publicFeed s page limit) (fun _ => rfl) rfl

theorem feed_pages_complete_witness :
    ((concatPages (fun page => feed exampleStore bob page 2)
          (feed exampleStore bob 1 2).totalPages).Perm
        (exampleStore.posts.filter (fun p => decide (inFeedOf bob p))) ∧
      newestFirst (concatPages (fun page => feed exampleStore bob page 2)
          (feed exampleStore bob 1 2).totalPages) ∧
      (exampleStore.posts.Nodup →
        (concatPages (fun page => feed exampleStore bob page 2)
          (feed exampleStore bob 1 2).totalPages).Nodup)) ∧
    ((concatPages (fun page => publicFeed exampleStore page 2)
          (publicFeed exampleStore 1 2).totalPages).Perm
        (exampleStore.posts.filter (fun p => p.isPublic)) ∧
      newestFirst
        (concatPages (fun page => publicFeed exampleStore page 2)
          (publicFeed exampleStore 1 2).totalPages) ∧
      (exampleStore.posts.Nodup →
        (concatPages (fun page => publicFeed exampleStore page 2)
          (publicFeed exampleStore 1 2).totalPages).Nodup)) :=
  feed_pages_complete exampleStore bob 2 (by decide)

/-- C4: for `page ≥ 1` and `limit ≥ 1` the `hasMore` field (`page * limit < total`)
of a feed page is true exactly when a matching post lies after the returned
page, and, for every total, exactly when `page < ceil(total / limit)`; the
returned page holds at most `limit` posts. -/
theorem feed_hasMore_iff (s : State) (V : User) (page limit : Nat)
    (hp : 1 ≤ page) (hl : 1 ≤ limit) :
    ((feed s V page limit).hasMore = true ↔
      ((sortCreatedAtDesc (s.posts.filter (feedQuery V))).drop ((page - 1) * limit)).drop limit
        ≠ []) ∧
    ((feed s V page limit).hasMore = true ↔ page < (feed s V page limit).totalPages) ∧
    (∀ total : Nat, decide (page * limit < total) = true ↔ page < mathCeilDiv total limit) ∧
    (feed s V page limit).items.length ≤ limit := by
  have hlen : (sortCreatedAtDesc (s.posts.filter (feedQuery V))).length
      = (s.posts.filter (feedQuery V)).length := (sortCreatedAtDesc_perm _).length_eq
  have hskip : (page - 1) * limit + limit = page * limit := by
    obtain ⟨k, rfl⟩ : ∃ k, page = k + 1 := ⟨page - 1, by omega⟩
    simp [Nat.succ_mul]
  refine ⟨?_, ?_, ?_, ?_⟩
  · simp only [feed, decide_eq_true_eq, List.drop_drop, ne_eq, List.drop_eq_nil_iff, not_le,
      hlen]
    have h2 : limit + (page - 1) * limit = page * limit := by omega
    first
      | rw [h2]
      | rw [hskip]
  · simp only [feed, decide_eq_true_eq]
    exact (lt_mathCeilDiv_iff _ _ _ hl).symm
  · intro total
    simp only [decide_eq_true_eq]
    exact (lt_mathCeilDiv_iff _ _ _ hl).symm
  · simp only [feed]
    exact List.length_take_le _ _

theorem feed_hasMore_iff_witness :
    ((feed exampleStore bob 1 2).hasMore = true ↔
      ((sortCreatedAtDesc (exampleStore.posts.filter (feedQuery bob))).drop ((1 - 1) * 2)).drop 2
        ≠ []) ∧
    ((feed exampleStore bob 1 2).hasMore = true ↔ 1 < (feed exampleStore bob 1 2).totalPages) ∧
    (∀ total : Nat, decide (1 * 2 < total) = true ↔ 1 < mathCeilDiv total 2) ∧
    (feed exampleStore bob 1 2).items.length ≤ 2 :=
  feed_hasMore_iff exampleStore bob 1 2 (by decide) (by decide)

theorem userPostsQuery_iff (reqUser : Option User) (userId : Id) (p : Post) :
    userPostsQuery reqUser userId p = true ↔
      p.author = userId ∧ (p.isPublic = true ∨ ∃ u, reqUser = some u ∧ u._id = userId) := by
  unfold userPostsQuery
  cases reqUser with
  | none => simp
  | some u =>
    by_cases hu : u._id = userId
    · simp [hu]
    · simp [hu]

/-- C5: every post of a page of the per-user listing is authored by `userId`,
the page is ordered newest first, every returned post is public unless the
requester is authenticated as `userId`, and (for `limit ≥ 1`) a stored private
post of `userId` is on some page of the listing exactly when the requester is
authenticated as `userId`. -/
theorem userPosts_visibility (s : State) (reqUser : Option User) (userId : Id)
    (page limit : Nat) (hl : 1 ≤ limit) :
    (∀ p ∈ (userPosts s reqUser userId page limit).items, p.author = userId) ∧
    newestFirst (userPosts s reqUser userId page limit).items ∧
    ((¬ ∃ u, reqUser = some u ∧ u._id = userId) →
      ∀ p ∈ (userPosts s reqUser userId page limit).items, p.isPublic = true) ∧
    (∀ p ∈ s.posts, p.author = userId → p.isPublic = false →
      ((∃ pg, 1 ≤ pg ∧ p ∈ (userPosts s reqUser userId pg limit).items) ↔
        ∃ u, reqUser = some u ∧ u._id = userId)) := by
  have hmem : ∀ pg, ∀ p ∈ (userPosts s reqUser userId pg limit).items,
      p ∈ s.posts ∧ userPostsQuery reqUser userId p = true := by
    intro pg p hp
    simp only [userPosts] at hp
    have h1 := (sortCreatedAtDesc_perm _).mem_iff.mp (mem_page hp)
    exact List.mem_filter.mp h1
  refine ⟨?_, ?_, ?_, ?_⟩
  · intro p hp
    exact ((userPostsQuery_iff _ _ _).mp (hmem page p hp).2).1
  · simp only [userPosts]
    exact newestFirst_page (sortCreatedAtDesc_sorted _) _ _
  · intro hno p hp
    rcases ((userPostsQuery_iff _ _ _).mp (hmem page p hp).2).2 with h | h
    · exact h
    · exact absurd h hno
  · intro p hp hauth hpriv
    constructor
    · rintro ⟨pg, _, hpg⟩
      rcases ((userPostsQuery_iff _ _ _).mp (hmem pg p hpg).2).2 with h | h
      · rw [hpriv] at h; exact absurd h (by decide)
      · exact h
    · intro howner
      have hq : userPostsQuery reqUser userId p = true :=
        (userPostsQuery_iff _ _ _).mpr ⟨hauth, Or.inr howner⟩
      have hin : p ∈ sortCreatedAtDesc (s.posts.filter (userPostsQuery reqUser userId)) :=
        (sortCreatedAtDesc_perm _).mem_iff.mpr (List.mem_filter.mpr ⟨hp, hq⟩)
      obtain ⟨pg, hpg1, hpg⟩ := mem_some_page _ limit hl p hin
      exact ⟨pg, hpg1, by simpa only [userPosts] using hpg⟩

theorem userPosts_visibility_witness :
    (∀ p ∈ (userPosts exampleStore (some bob) 1 1 10).items, p.author = 1) ∧
    newestFirst (userPosts exampleStore (some bob) 1 1 10).items ∧
    ((¬ ∃ u, some bob = some u ∧ u._id = 1) →
      ∀ p ∈ (userPosts exampleStore (some bob) 1 1 10).items, p.isPublic = true) ∧
    (∀ p ∈ exampleStore.posts, p.author = 1 → p.isPublic = false →
      ((∃ pg, 1 ≤ pg ∧ p ∈ (userPosts exampleStore (some bob) 1 pg 10).items) ↔
        ∃ u, some bob = some u ∧ u._id = 1)) :=
  userPosts_visibility exampleStore (some bob) 1 1 10 (by decide)

/-! ### The follow toggle -/

theorem findUserById_eq_of_mem {s : State} (hids : uniqueUserIds s) {u : User}
    (hu : u ∈ s.users) : findUserById s u._id = some u := by
  unfold findUserById
  unfold uniqueUserIds at hids
  generalize s.users = us at hids hu
  induction us with
  | nil => cases hu
  | cons x xs ih =>
    rw [List.map_cons, List.nodup_cons] at hids
    by_cases hx : x._id = u._id
    · rcases List.mem_cons.mp hu with h | h
      · subst h; simp
      · exact absurd (hx ▸ List.mem_map_of_mem (fun u => u._id) h) hids.1
    · rcases List.mem_cons.mp hu with h | h
      · exact absurd (congrArg (fun u => u._id) h.symm) hx
      · rw [List.find?_cons_of_neg _ (by simpa using hx)]
        exact ih hids.2 h

theorem eq_of_mem_of_id_eq {s : State} (hids : uniqueUserIds s) {u v : User}
    (hu : u ∈ s.users) (hv : v ∈ s.users) (h : u._id = v._id) : u = v := by
  have h1 := findUserById_eq_of_mem hids hu
  have h2 := findUserById_eq_of_mem hids hv
  rw [h] at h1
  exact Option.some.inj (h1.symm.trans h2)

theorem mem_toggled (l : List Id) (c : Bool) (x y : Id) :
    y ∈ toggled l c x ↔ (c = true ∧ y ∈ l ∧ y ≠ x) ∨ (c = false ∧ (y ∈ l ∨ y = x)) := by
  unfold toggled
  cases c <;> simp

/-- Shape of a successful follow: both documents are rewritten in place. -/
theorem follow_eq (s : State) (A B : User) (b : Id) (hne : A._id ≠ b)
    (hB : findUserById s b = some B) :
    follow s A b =
      (.ok 200
        { message :=
            if A.following.contains b then "Unfollowed successfully"
            else "Followed successfully"
          isFollowing := !(A.following.contains b) },
       { s with
         users := s.users.map (fun X =>
           if X._id = b then
             { B with followers := toggled B.followers (A.following.contains b) A._id }
           else if X._id = A._id then
             { A with following := toggled A.following (A.following.contains b) b }
           else X) }) := by
  have hBid : B._id = b := findUserById_id hB
  have hne2 : ¬ b = A._id := fun h => hne h.symm
  unfold follow
  rw [if_neg hne]
  simp only [hB, saveUser, List.map_map]
  refine Prod.ext rfl ?_
  simp only
  congr 1
  apply List.map_congr_left
  intro X _
  simp only [Function.comp, toggled]
  by_cases hXA : X._id = A._id
  · have hXb : ¬ X._id = b := fun h => hne (hXA.symm.trans h)
    cases hc : A.following.contains b <;> simp [hXA, hXb, hne, hne2, hBid]
  · by_cases hXb : X._id = b
    · cases hc : A.following.contains b <;> simp [hXA, hXb, hne, hne2, hBid]
    · cases hc : A.following.contains b <;> simp [hXA, hXb, hne, hne2, hBid]

theorem follow_self (s : State) (currentUser : User) (userId : Id)
    (h : currentUser._id = userId) :
    follow s currentUser userId = (.error 400 "You cannot follow yourself", s) := by
  unfold follow
  rw [if_pos h]

theorem follow_not_found (s : State) (currentUser : User) (userId : Id)
    (h : currentUser._id ≠ userId) (hnone : findUserById s userId = none) :
    follow s currentUser userId = (.error 404 "User not found", s) := by
  unfold follow
  rw [if_neg h, hnone]

/-- C6: the follow handler answers 400 when the target id is the viewer's own
id and 404 when no user has the target id, leaving the whole store (so every
following and followers list) unchanged; for every other input it answers 200. -/
theorem follow_errors (s : State) (currentUser : User) (userId : Id) :
    (currentUser._id = userId →
      follow s currentUser userId = (.error 400 "You cannot follow yourself", s)) ∧
    (currentUser._id ≠ userId → findUserById s userId = none →
      follow s currentUser userId = (.error 404 "User not found", s)) ∧
    (currentUser._id ≠ userId → (∃ u, findUserById s userId = some u) →
      ∃ body s1, follow s currentUser userId = (.ok 200 body, s1)) := by
  refine ⟨follow_self s currentUser userId, follow_not_found s currentUser userId, ?_⟩
  rintro h ⟨u, hu⟩
  exact ⟨_, _, follow_eq s currentUser u userId h hu⟩

/-- Users after a successful follow, field by field. -/
theorem follow_users_fields (s : State) (A B : User) (b : Id) (hne : A._id ≠ b)
    (hA : findUserById s A._id = some A) (hB : findUserById s b = some B)
    (hids : uniqueUserIds s) :
    uniqueUserIds (follow s A b).2 ∧
    ∀ X1, X1 ∈ (follow s A b).2.users ↔
      ∃ X ∈ s.users, X1._id = X._id ∧
        X1.following
          = (if X._id = A._id then toggled A.following (A.following.contains b) b
             else X.following) ∧
        X1.followers
          = (if X._id = b then toggled B.followers (A.following.contains b) A._id
             else X.followers) ∧
        X1.username = X.username ∧ X1.email = X.email ∧ X1.bio = X.bio := by
  have hBid : B._id = b := findUserById_id hB
  have hAmem : A ∈ s.users := findUserById_mem hA
  have hBmem : B ∈ s.users := findUserById_mem hB
  have hne2 : ¬ b = A._id := fun h => hne h.symm
  rw [follow_eq s A B b hne hB]
  simp only
  constructor
  · unfold uniqueUserIds at *
    simp only [List.map_map]
    have : ((fun u : User => u._id) ∘ fun X =>
        if X._id = b then
          { B with followers := toggled B.followers (A.following.contains b) A._id }
        else if X._id = A._id then
          { A with following := toggled A.following (A.following.contains b) b }
        else X) = fun u : User => u._id := by
      funext X
      simp only [Function.comp]
      by_cases h1 : X._id = b
      · simp [h1, hBid]
      · by_cases h2 : X._id = A._id
        · simp [h1, h2, hne]
        · simp [h1, h2]
    rw [this]
    exact hids
  · intro X1
    simp only [List.mem_map]
    constructor
    · rintro ⟨X, hX, rfl⟩
      refine ⟨X, hX, ?_⟩
      by_cases h1 : X._id = b
      · have hXB : X = B := eq_of_mem_of_id_eq hids hX hBmem (h1.trans hBid.symm)
        have h2 : ¬ X._id = A._id := fun h => hne (h.symm.trans h1)
        subst hXB
        simp [h1, h2, hne2]
      · by_cases h2 : X._id = A._id
        · have hXA : X = A := eq_of_mem_of_id_eq hids hX hAmem h2
          subst hXA
          simp [h1]
        · simp [h1, h2]
    · rintro ⟨X, hX, hid, hfg, hfr, hun, hem, hbio⟩
      refine ⟨X, hX, ?_⟩
      obtain ⟨i, un, em, bio, fg, fr⟩ := X1
      simp only at hid hfg hfr hun hem hbio
      subst hid hfg hfr hun hem hbio
      by_cases h1 : X._id = b
      · have hXB : X = B := eq_of_mem_of_id_eq hids hX hBmem (h1.trans hBid.symm)
        have h2 : ¬ X._id = A._id := fun h => hne (h.symm.trans h1)
        subst hXB
        simp [h1, h2, hne2]
      · by_cases h2 : X._id = A._id
        · have hXA : X = A := eq_of_mem_of_id_eq hids hX hAmem h2
          subst hXA
          simp [h1]
        · simp [h1, h2]

theorem follow_ok_inv {s s1 : State} {A : User} {b : Id} {body : FollowBody}
    (hok : follow s A b = (.ok 200 body, s1)) :
    A._id ≠ b ∧ ∃ B, findUserById s b = some B := by
  by_cases hne : A._id = b
  · have h := follow_self s A b hne
    rw [h] at hok
    simp at hok
  · refine ⟨hne, ?_⟩
    cases hB : findUserById s b with
    | none =>
      have h := follow_not_found s A b hne hB
      rw [h] at hok
      simp at hok
    | some B => exact ⟨B, rfl⟩

/-- C7: a successful follow of `b` by the stored user `A` keeps the follow graph
symmetric, free of duplicates and free of self-entries, flips the membership of
`b` in `A.following`, and changes no list other than `A.following` and the
followers of `b` (nor any other collection). -/
theorem follow_preserves_graph (s s1 : State) (A : User) (b : Id) (body : FollowBody)
    (hA : findUserById s A._id = some A) (hids : uniqueUserIds s)
    (hsym : followSymmetric s) (hnd : followNoDup s) (hns : followNoSelf s)
    (hok : follow s A b = (.ok 200 body, s1)) :
    followSymmetric s1 ∧ followNoDup s1 ∧ followNoSelf s1 ∧
    (∃ A1, findUserById s1 A._id = some A1 ∧ (b ∈ A1.following ↔ b ∉ A.following)) ∧
    (∀ X ∈ s.users, ∃ X1, findUserById s1 X._id = some X1 ∧
      (X._id ≠ A._id → X1.following = X.following) ∧
      (X._id ≠ b → X1.followers = X.followers)) ∧
    s1.posts = s.posts ∧ s1.comments = s.comments ∧ s1.notifications = s.notifications := by
  obtain ⟨hne, B, hB⟩ := follow_ok_inv hok
  have hBid : B._id = b := findUserById_id hB
  have hAmem : A ∈ s.users := findUserById_mem hA
  have hBmem : B ∈ s.users := findUserById_mem hB
  have hs1 : s1 = (follow s A b).2 := by rw [hok]
  obtain ⟨hids1, hmem⟩ := follow_users_fields s A B b hne hA hB hids
  rw [← hs1] at hids1 hmem
  have hAB : b ∈ A.following ↔ A._id ∈ B.followers := by
    have := hsym A hAmem B hBmem
    rwa [hBid] at this
  have hc : A.following.contains b = true ↔ b ∈ A.following := by simp
  have hcf : A.following.contains b = false ↔ b ∉ A.following := by simp
  have hXA : ∀ X ∈ s.users, X._id = A._id → X = A :=
    fun X hX h => eq_of_mem_of_id_eq hids hX hAmem h
  have hXB : ∀ X ∈ s.users, X._id = b → X = B :=
    fun X hX h => eq_of_mem_of_id_eq hids hX hBmem (h.trans hBid.symm)
  refine ⟨?_, ?_, ?_, ?_, ?_, ?_⟩
  · intro X1 hX1 Y1 hY1
    obtain ⟨X, hX, hXid, hXfg, -, -⟩ := (hmem X1).mp hX1
    obtain ⟨Y, hY, hYid, -, hYfr, -⟩ := (hmem Y1).mp hY1
    rw [hXid, hYid, hXfg, hYfr]
    have hXY := hsym X hX Y hY
    by_cases h1 : X._id = A._id
    · have hXe := hXA X hX h1
      subst hXe
      by_cases h2 : Y._id = b
      · rw [if_pos rfl, if_pos h2, mem_toggled, mem_toggled, h2]
        simp [hc, hcf]
      · rw [if_pos rfl, if_neg h2, mem_toggled, ← hXY]
        simp only [hc, hcf, ne_eq, h2, not_false_eq_true, and_true, or_false]
        tauto
    · by_cases h2 : Y._id = b
      · have hYe := hXB Y hY h2
        subst hYe
        rw [if_neg h1, if_pos h2, mem_toggled, hXY]
        simp only [hc, hcf, hAB, ne_eq, h1, not_false_eq_true, and_true, or_false]
        tauto
      · rw [if_neg h1, if_neg h2]
        exact hXY
  · intro X1 hX1
    obtain ⟨X, hX, -, hXfg, hXfr, -⟩ := (hmem X1).mp hX1
    rw [hXfg, hXfr]
    have hXnd := hnd X hX
    constructor
    · by_cases h1 : X._id = A._id
      · have hXe := hXA X hX h1
        subst hXe
        rw [if_pos rfl]
        unfold toggled
        by_cases hcb : b ∈ X.following
        · rw [if_pos (hc.mpr hcb)]
          exact hXnd.1.filter _
        · rw [if_neg (by simpa using hcb)]
          exact List.Nodup.append hXnd.1 (List.nodup_singleton b) (by simpa using hcb)
      · rw [if_neg h1]
        exact hXnd.1
    · by_cases h2 : X._id = b
      · have hXe := hXB X hX h2
        subst hXe
        rw [if_pos h2]
        unfold toggled
        by_cases hcb : b ∈ A.following
        · rw [if_pos (hc.mpr hcb)]
          exact hXnd.2.filter _
        · rw [if_neg (by simpa using hcb)]
          have : A._id ∉ X.followers := fun h => hcb (hAB.mpr h)
          exact List.Nodup.append hXnd.2 (List.nodup_singleton _) (by simpa using this)
      · rw [if_neg h2]
        exact hXnd.2
  · intro X1 hX1
    obtain ⟨X, hX, hXid, hXfg, hXfr, -⟩ := (hmem X1).mp hX1
    rw [hXid, hXfg, hXfr]
    have hXns := hns X hX
    constructor
    · by_cases h1 : X._id = A._id
      · rw [if_pos h1, mem_toggled, h1]
        have := hXns.1
        rw [hXA X hX h1] at this
        simp [this, hne]
      · rw [if_neg h1]
        exact hXns.1
    · by_cases h2 : X._id = b
      · rw [if_pos h2, mem_toggled, h2]
        have := hXns.2
        rw [hXB X hX h2, hBid] at this
        have hne2 : ¬ b = A._id := fun h => hne h.symm
        simp [this, hne2]
      · rw [if_neg h2]
        exact hXns.2
  · have hA1 := (hmem { A with
        following := toggled A.following (A.following.contains b) b,
        followers := if A._id = b then toggled B.followers (A.following.contains b) A._id
                     else A.followers }).mpr ⟨A, hAmem, rfl, by simp, rfl, rfl, rfl, rfl⟩
    have hfind := findUserById_eq_of_mem hids1 hA1
    refine ⟨_, hfind, ?_⟩
    simp only [mem_toggled]
    simp [hc, hcf]
  · intro X hX
    have hX1 := (hmem { X with
        following := if X._id = A._id then toggled A.following (A.following.contains b) b
                     else X.following,
        followers := if X._id = b then toggled B.followers (A.following.contains b) A._id
                     else X.followers }).mpr ⟨X, hX, rfl, rfl, rfl, rfl, rfl, rfl⟩
    have hfind := findUserById_eq_of_mem hids1 hX1
    refine ⟨_, hfind, ?_, ?_⟩
    · intro h; simp [h]
    · intro h; simp [h]
  · rw [hs1, follow_eq s A B b hne hB]
    exact ⟨rfl, rfl, rfl⟩

theorem follow_preserves_graph_witness :
    followSymmetric (follow exampleStore carol 1).2 ∧
    followNoDup (follow exampleStore carol 1).2 ∧
    followNoSelf (follow exampleStore carol 1).2 ∧
    (∃ A1, findUserById (follow exampleStore carol 1).2 carol._id = some A1 ∧
      (1 ∈ A1.following ↔ 1 ∉ carol.following)) ∧
    (∀ X ∈ exampleStore.users, ∃ X1,
      findUserById (follow exampleStore carol 1).2 X._id = some X1 ∧
      (X._id ≠ carol._id → X1.following = X.following) ∧
      (X._id ≠ 1 → X1.followers = X.followers)) ∧
    (follow exampleStore carol 1).2.posts = exampleStore.posts ∧
    (follow exampleStore carol 1).2.comments = exampleStore.comments ∧
    (follow exampleStore carol 1).2.notifications = exampleStore.notifications :=
  follow_preserves_graph exampleStore (follow exampleStore carol 1).2 carol 1
    ⟨"Followed successfully", true⟩ (by decide) (by decide) (by decide) (by decide)
    (by decide) (by decide)

/-- A stored user after a successful follow. -/
theorem follow_find (s : State) (A B : User) (b : Id) (hne : A._id ≠ b)
    (hA : findUserById s A._id = some A) (hB : findUserById s b = some B)
    (hids : uniqueUserIds s) (X : User) (hX : X ∈ s.users) :
    ∃ X1, findUserById (follow s A b).2 X._id = some X1 ∧
      X1.following
        = (if X._id = A._id then toggled A.following (A.following.contains b) b
           else X.following) ∧
      X1.followers
        = (if X._id = b then toggled B.followers (A.following.contains b) A._id
           else X.followers) := by
  obtain ⟨hids1, hmem⟩ := follow_users_fields s A B b hne hA hB hids
  have hX1 := (hmem { X with
      following := if X._id = A._id then toggled A.following (A.following.contains b) b
                   else X.following,
      followers := if X._id = b then toggled B.followers (A.following.contains b) A._id
                   else X.followers }).mpr ⟨X, hX, rfl, rfl, rfl, rfl, rfl, rfl⟩
  have hfind := findUserById_eq_of_mem hids1 hX1
  exact ⟨_, hfind, rfl, rfl⟩

theorem filter_ne_append_self (l : List Id) (x : Id) (h : x ∉ l) :
    (l ++ [x]).filter (fun id => id != x) = l := by
  rw [List.filter_append]
  have h1 : l.filter (fun id => id != x) = l := by
    rw [List.filter_eq_self]
    intro y hy
    have : y ≠ x := fun e => h (e ▸ hy)
    simpa using this
  simp [h1]

/-- C8: for distinct stored users `a`, `b` with `b ∉ A.following` and
`a ∉ B.followers`, the first follow request reports `isFollowing = true` and
appends `b` to `A.following` and `a` to `B.followers` (giving `[b]` and `[a]`
from empty lists), and the second reports `isFollowing = false` and leaves both
lists as they were before the first. -/
theorem follow_twice_restores (s : State) (a b : Id) (A B : User)
    (hA : findUserById s a = some A) (hB : findUserById s b = some B) (hab : a ≠ b)
    (hids : uniqueUserIds s) (h1 : b ∉ A.following) (h2 : a ∉ B.followers) :
    (followRequest s a b).1 = .ok 200 ⟨"Followed successfully", true⟩ ∧
    (followRequest (followRequest s a b).2 a b).1
      = .ok 200 ⟨"Unfollowed successfully", false⟩ ∧
    (∃ A1 B1, findUserById (followRequest s a b).2 a = some A1 ∧
      findUserById (followRequest s a b).2 b = some B1 ∧
      A1.following = A.following ++ [b] ∧ B1.followers = B.followers ++ [a] ∧
      (A.following = [] → A1.following = [b]) ∧ (B.followers = [] → B1.followers = [a])) ∧
    (∃ A2 B2, findUserById (followRequest (followRequest s a b).2 a b).2 a = some A2 ∧
      findUserById (followRequest (followRequest s a b).2 a b).2 b = some B2 ∧
      A2.following = A.following ∧ B2.followers = B.followers) := by
  have hAid : A._id = a := findUserById_id hA
  have hBid : B._id = b := findUserById_id hB
  subst hAid
  have hne : A._id ≠ b := hab
  have hne2 : ¬ b = A._id := fun h => hab h.symm
  have hAmem := findUserById_mem hA
  have hBmem := findUserById_mem hB
  have hc : A.following.contains b = false := by simpa using h1
  have hreq1 : followRequest s A._id b = follow s A b := by
    simp [followRequest, auth, hA]
  obtain ⟨A1, hA1, hA1fg, -⟩ := follow_find s A B b hne hA hB hids A hAmem
  obtain ⟨B1, hB1, -, hB1fr⟩ := follow_find s A B b hne hA hB hids B hBmem
  rw [hBid] at hB1
  rw [if_pos rfl, hc] at hA1fg
  rw [if_pos hBid, hc] at hB1fr
  simp only [toggled, Bool.false_eq_true, if_false] at hA1fg hB1fr
  have hids1 := (follow_users_fields s A B b hne hA hB hids).1
  have hA1id : A1._id = A._id := findUserById_id hA1
  have hA1' : findUserById (follow s A b).2 A1._id = some A1 := by rw [hA1id]; exact hA1
  have hne1 : A1._id ≠ b := by rw [hA1id]; exact hne
  have hc1 : A1.following.contains b = true := by simp [hA1fg]
  have hreq2 : followRequest (follow s A b).2 A._id b = follow (follow s A b).2 A1 b := by
    simp [followRequest, auth, hA1]
  obtain ⟨A2, hA2, hA2fg, -⟩ :=
    follow_find (follow s A b).2 A1 B1 b hne1 hA1' hB1 hids1 A1 (findUserById_mem hA1)
  obtain ⟨B2, hB2, -, hB2fr⟩ :=
    follow_find (follow s A b).2 A1 B1 b hne1 hA1' hB1 hids1 B1 (findUserById_mem hB1)
  have hB1id : B1._id = b := findUserById_id hB1
  rw [hA1id] at hA2
  rw [hB1id] at hB2
  rw [if_pos rfl, hc1] at hA2fg
  rw [if_pos hB1id, hc1] at hB2fr
  simp only [toggled, if_true] at hA2fg hB2fr
  rw [hA1fg, filter_ne_append_self _ _ h1] at hA2fg
  rw [hB1fr, hA1id, filter_ne_append_self _ _ h2] at hB2fr
  rw [hreq1, hreq2]
  refine ⟨?_, ?_, ?_, ?_⟩
  · rw [follow_eq s A B b hne hB, hc]
    rfl
  · rw [follow_eq (follow s A b).2 A1 B1 b hne1 hB1, hc1]
    rfl
  · refine ⟨A1, B1, hA1, hB1, hA1fg, hB1fr, ?_, ?_⟩
    · intro h; rw [hA1fg, h]; rfl
    · intro h; rw [hB1fr, h]; rfl
  · exact ⟨A2, B2, hA2, hB2, hA2fg, hB2fr⟩

theorem follow_twice_restores_witness :
    (followRequest exampleStore 3 1).1 = .ok 200 ⟨"Followed successfully", true⟩ ∧
    (followRequest (followRequest exampleStore 3 1).2 3 1).1
      = .ok 200 ⟨"Unfollowed successfully", false⟩ ∧
    (∃ A1 B1, findUserById (followRequest exampleStore 3 1).2 3 = some A1 ∧
      findUserById (followRequest exampleStore 3 1).2 1 = some B1 ∧
      A1.following = carol.following ++ [1] ∧ B1.followers = alice.followers ++ [3] ∧
      (carol.following = [] → A1.following = [1]) ∧
      (alice.followers = [] → B1.followers = [3])) ∧
    (∃ A2 B2, findUserById (followRequest (followRequest exampleStore 3 1).2 3 1).2 3 = some A2 ∧
      findUserById (followRequest (followRequest exampleStore 3 1).2 3 1).2 1 = some B2 ∧
      A2.following = carol.following ∧ B2.followers = alice.followers) :=
  follow_twice_restores exampleStore 3 1 carol alice (by decide) (by decide) (by decide)
    (by decide) (by decide) (by decide)

/-- C9 (as the code behaves): the follow handler never touches the
notifications collection and emits no real-time event, whatever its outcome. -/
theorem follow_no_notification (s : State) (currentUser : User) (userId : Id) :
    (follow s currentUser userId).2.notifications = s.notifications ∧
    (follow s currentUser userId).2.emitted = s.emitted := by
  by_cases hne : currentUser._id = userId
  · rw [follow_self s currentUser userId hne]
    exact ⟨rfl, rfl⟩
  · cases hB : findUserById s userId with
    | none =>
      rw [follow_not_found s currentUser userId hne hB]
      exact ⟨rfl, rfl⟩
    | some B =>
      rw [follow_eq s currentUser B userId hne hB]
      exact ⟨rfl, rfl⟩

/-- C9 (counterexample): carol (3) follows alice (1) for the first time; the
request succeeds with `isFollowing = true`, yet the store holds no Notification
of type follow for alice from carol and nothing was emitted. -/
theorem follow_notification_missing :
    (follow exampleStore carol 1).1 = .ok 200 ⟨"Followed successfully", true⟩ ∧
    ¬ (((follow exampleStore carol 1).2.notifications.filter
          (fun n => n.type = .follow ∧ n.recipient = 1 ∧ n.sender = 3)).length = 1) ∧
    ¬ (((follow exampleStore carol 1).2.emitted.filter (fun e => e.room = 1)).length = 1) := by
  decide

/-! ### Notification fan-out -/

/-- C10: a successful like (not unlike) of a post or of a comment, and a
successful addComment, by an actor who is not the owner of the target, stores
exactly one unread Notification (recipient the owner, sender the actor, type
like respectively comment, referring to the post or comment) and emits it once
to the room of the recipient; an unlike stores and emits nothing. -/
theorem notification_fanout (s : State) (actor : User) (notificationId now : Nat) :
    (∀ postId post body, findPostById s postId = some post →
      (likePost s actor postId notificationId now).1 = .ok 200 body → body.isLiked = true →
      post.author ≠ actor._id →
      ∃ n, addsOne s (likePost s actor postId notificationId now).2 n ∧
        isNotificationFor n post.author actor._id .like (some postId) none) ∧
    (∀ commentId comment body, findCommentById s commentId = some comment →
      (likeComment s actor commentId notificationId now).1 = .ok 200 body →
      body.isLiked = true → comment.author ≠ actor._id →
      ∃ n, addsOne s (likeComment s actor commentId notificationId now).2 n ∧
        isNotificationFor n comment.author actor._id .like none (some commentId)) ∧
    (∀ postId post content parentCommentId commentId body,
      findPostById s postId = some post →
      (addComment s actor postId content parentCommentId commentId notificationId now).1
        = .ok 201 body →
      post.author ≠ actor._id →
      ∃ n, addsOne s
          (addComment s actor postId content parentCommentId commentId notificationId now).2 n ∧
        isNotificationFor n post.author actor._id .comment (some postId) (some commentId)) ∧
    (∀ postId body,
      (likePost s actor postId notificationId now).1 = .ok 200 body → body.isLiked = false →
      (likePost s actor postId notificationId now).2.notifications = s.notifications ∧
      (likePost s actor postId notificationId now).2.emitted = s.emitted) ∧
    (∀ commentId body,
      (likeComment s actor commentId notificationId now).1 = .ok 200 body →
      body.isLiked = false →
      (likeComment s actor commentId notificationId now).2.notifications = s.notifications ∧
      (likeComment s actor commentId notificationId now).2.emitted = s.emitted) := by
  refine ⟨?_, ?_, ?_, ?_, ?_⟩
  · intro postId post body hfind hok hliked hne
    have hid : post._id = postId := by
      have := List.find?_some hfind
      simpa using this
    subst hid
    unfold likePost at hok ⊢
    rw [hfind] at hok ⊢
    cases hc : post.likes.contains actor._id
    · simp only [hc, Bool.false_eq_true, if_false, if_pos hne]
      exact ⟨_, ⟨rfl, rfl⟩, rfl, rfl, rfl, rfl, rfl, rfl⟩
    · simp only [hc, if_true, Bool.not_true] at hok
      injection hok with _ hb
      rw [← hb] at hliked
      cases hliked
  · intro commentId comment body hfind hok hliked hne
    have hid : comment._id = commentId := by
      have := List.find?_some hfind
      simpa using this
    subst hid
    unfold likeComment at hok ⊢
    rw [hfind] at hok ⊢
    cases hc : comment.likes.contains actor._id
    · simp only [hc, Bool.false_eq_true, if_false, if_pos hne]
      exact ⟨_, ⟨rfl, rfl⟩, rfl, rfl, rfl, rfl, rfl, rfl⟩
    · simp only [hc, if_true, Bool.not_true] at hok
      injection hok with _ hb
      rw [← hb] at hliked
      cases hliked
  · intro postId post content parentCommentId commentId body hfind hok hne
    have hid : post._id = postId := by
      have := List.find?_some hfind
      simpa using this
    subst hid
    unfold addComment at hok ⊢
    by_cases h1 : contentMissing content = true
    · rw [if_pos h1] at hok
      cases hok
    · rw [if_neg h1] at hok ⊢
      rw [hfind] at hok ⊢
      simp only at hok ⊢
      split at hok
      · cases hok
      · rename_i h2
        by_cases h3 : (!commentContentValid (jsTrim (content.getD ""))) = true
        · rw [if_pos h3] at hok
          cases hok
        rw [if_neg h2, if_neg h3, if_pos hne]
        refine ⟨{ _id := notificationId, recipient := post.author, sender := actor._id,
                  type := .comment, post := some post._id, comment := some commentId,
                  isRead := false, message := actor.username ++ " commented on your post",
                  createdAt := now }, ⟨?_, ?_⟩, rfl, rfl, rfl, rfl, rfl, rfl⟩
        · cases parentCommentId <;> rfl
        · cases parentCommentId <;> rfl
  · intro postId body hok hunliked
    unfold likePost at hok ⊢
    cases hfind : findPostById s postId with
    | none => exact ⟨rfl, rfl⟩
    | some post =>
      rw [hfind] at hok
      simp only at hok ⊢
      cases hc : post.likes.contains actor._id
      · simp only [hc, Bool.false_eq_true, if_false, Bool.not_false] at hok
        injection hok with _ hb
        rw [← hb] at hunliked
        cases hunliked
      · simp [hc]
  · intro commentId body hok hunliked
    unfold likeComment at hok ⊢
    cases hfind : findCommentById s commentId with
    | none => exact ⟨rfl, rfl⟩
    | some comment =>
      rw [hfind] at hok
      simp only at hok ⊢
      cases hc : comment.likes.contains actor._id
      · simp only [hc, Bool.false_eq_true, if_false, Bool.not_false] at hok
        injection hok with _ hb
        rw [← hb] at hunliked
        cases hunliked
      · simp [hc]

theorem notification_fanout_witness :
    (∃ n, addsOne exampleStore (likePost exampleStore bob 11 100 9).2 n ∧
      isNotificationFor n 1 bob._id .like (some 11) none) ∧
    (∃ n, addsOne exampleStore
        (addComment exampleStore bob 11 (some " nice ") none 50 100 9).2 n ∧
      isNotificationFor n 1 bob._id .comment (some 11) (some 50)) ∧
    ((likePost (likePost exampleStore bob 11 100 9).2 bob 11 101 10).2.notifications
        = (likePost exampleStore bob 11 100 9).2.notifications ∧
      (likePost (likePost exampleStore bob 11 100 9).2 bob 11 101 10).2.emitted
        = (likePost exampleStore bob 11 100 9).2.emitted) :=
  ⟨(notification_fanout exampleStore bob 100 9).1 11 ⟨11, 1, "hello", [], true, [], [], 6⟩
      ⟨"Post liked", true, 1⟩ (by decide) (by decide) rfl (by decide),
   (notification_fanout exampleStore bob 100 9).2.2.1 11 ⟨11, 1, "hello", [], true, [], [], 6⟩
      (some " nice ") none 50 ⟨50, 2, 11, "nice", [], none, [], 9⟩ (by decide) (by decide)
      (by decide),
   (notification_fanout (likePost exampleStore bob 11 100 9).2 bob 101 10).2.2.2.1 11
      ⟨"Post unliked", false, 0⟩ (by decide) rfl⟩

/-- What a like or comment handler does to the notifications: it stores nothing
and emits nothing, or stores one notification whose sender is not its recipient
and emits that one. -/
theorem likePost_created (s : State) (actor : User) (postId notificationId now : Nat) :
    ((likePost s actor postId notificationId now).2.notifications = s.notifications ∧
      (likePost s actor postId notificationId now).2.emitted = s.emitted) ∨
    ∃ n, addsOne s (likePost s actor postId notificationId now).2 n ∧
      n.sender ≠ n.recipient := by
  unfold likePost
  cases hfind : findPostById s postId with
  | none => exact Or.inl ⟨rfl, rfl⟩
  | some post =>
    simp only
    cases hc : post.likes.contains actor._id
    · by_cases hne : post.author = actor._id
      · left
        simp [hne]
      · right
        simp only [Bool.false_eq_true, if_false, ne_eq, hne, not_false_eq_true, if_true]
        exact ⟨_, ⟨rfl, rfl⟩, fun h => hne h.symm⟩
    · left
      simp

theorem likeComment_created (s : State) (actor : User) (commentId notificationId now : Nat) :
    ((likeComment s actor commentId notificationId now).2.notifications = s.notifications ∧
      (likeComment s actor commentId notificationId now).2.emitted = s.emitted) ∨
    ∃ n, addsOne s (likeComment s actor commentId notificationId now).2 n ∧
      n.sender ≠ n.recipient := by
  unfold likeComment
  cases hfind : findCommentById s commentId with
  | none => exact Or.inl ⟨rfl, rfl⟩
  | some comment =>
    simp only
    cases hc : comment.likes.contains actor._id
    · by_cases hne : comment.author = actor._id
      · left
        simp [hne]
      · right
        simp only [Bool.false_eq_true, if_false, ne_eq, hne, not_false_eq_true, if_true]
        exact ⟨_, ⟨rfl, rfl⟩, fun h => hne h.symm⟩
    · left
      simp

/-- The store a successful addComment leaves, before the notification step,
holds the notifications and emissions it started with. -/
theorem addComment_created (s : State) (actor : User) (postId : Id)
    (content : Option String) (parentCommentId : Option Id)
    (commentId notificationId now : Nat) :
    ((addComment s actor postId content parentCommentId commentId notificationId now).2.notifications
        = s.notifications ∧
      (addComment s actor postId content parentCommentId commentId notificationId now).2.emitted
        = s.emitted) ∨
    ∃ n, addsOne s
        (addComment s actor postId content parentCommentId commentId notificationId now).2 n ∧
      n.sender ≠ n.recipient := by
  unfold addComment
  by_cases h1 : contentMissing content = true
  · rw [if_pos h1]
    exact Or.inl ⟨rfl, rfl⟩
  · rw [if_neg h1]
    cases hfind : findPostById s postId with
    | none => exact Or.inl ⟨rfl, rfl⟩
    | some post =>
      simp only
      split
      · exact Or.inl ⟨rfl, rfl⟩
      · by_cases h3 : (!commentContentValid (jsTrim (content.getD ""))) = true
        · rw [if_pos h3]
          exact Or.inl ⟨rfl, rfl⟩
        rw [if_neg h3]
        by_cases hne : post.author = actor._id
        · left
          rw [if_neg (by simpa using hne)]
          cases parentCommentId <;> exact ⟨rfl, rfl⟩
        · right
          rw [if_pos hne]
          refine ⟨{ _id := notificationId, recipient := post.author, sender := actor._id,
                    type := .comment, post := some post._id, comment := some commentId,
                    isRead := false, message := actor.username ++ " commented on your post",
                    createdAt := now }, ⟨?_, ?_⟩, fun h => hne h.symm⟩
          · cases parentCommentId <;> rfl
          · cases parentCommentId <;> rfl

/-- C11: a like of one's own post or comment and a comment on one's own post
store no Notification and emit nothing; and whatever these three handlers store
is at most one Notification, whose sender differs from its recipient. -/
theorem self_action_no_notification (s : State) (actor : User) (notificationId now : Nat) :
    (∀ postId post, findPostById s postId = some post → post.author = actor._id →
      (likePost s actor postId notificationId now).2.notifications = s.notifications ∧
      (likePost s actor postId notificationId now).2.emitted = s.emitted) ∧
    (∀ commentId comment, findCommentById s commentId = some comment →
      comment.author = actor._id →
      (likeComment s actor commentId notificationId now).2.notifications = s.notifications ∧
      (likeComment s actor commentId notificationId now).2.emitted = s.emitted) ∧
    (∀ postId post content parentCommentId commentId,
      findPostById s postId = some post → post.author = actor._id →
      (addComment s actor postId content parentCommentId commentId notificationId now).2.notifications
        = s.notifications ∧
      (addComment s actor postId content parentCommentId commentId notificationId now).2.emitted
        = s.emitted) ∧
    (∀ postId, ∃ created,
      (likePost s actor postId notificationId now).2.notifications = s.notifications ++ created ∧
      created.length ≤ 1 ∧ ∀ n ∈ created, n.sender ≠ n.recipient) ∧
    (∀ commentId, ∃ created,
      (likeComment s actor commentId notificationId now).2.notifications
        = s.notifications ++ created ∧
      created.length ≤ 1 ∧ ∀ n ∈ created, n.sender ≠ n.recipient) ∧
    (∀ postId content parentCommentId commentId, ∃ created,
      (addComment s actor postId content parentCommentId commentId notificationId now).2.notifications
        = s.notifications ++ created ∧
      created.length ≤ 1 ∧ ∀ n ∈ created, n.sender ≠ n.recipient) := by
  have key : ∀ s1 : State,
      ((s1.notifications = s.notifications ∧ s1.emitted = s.emitted) ∨
        ∃ n, addsOne s s1 n ∧ n.sender ≠ n.recipient) →
      ∃ created, s1.notifications = s.notifications ++ created ∧
        created.length ≤ 1 ∧ ∀ n ∈ created, n.sender ≠ n.recipient := by
    rintro s1 (⟨h, -⟩ | ⟨n, ⟨h, -⟩, hn⟩)
    · exact ⟨[], by simp [h], by simp, by simp⟩
    · exact ⟨[n], h, by simp, by simpa using hn⟩
  refine ⟨?_, ?_, ?_, ?_, ?_, ?_⟩
  · intro postId post hfind hself
    unfold likePost
    rw [hfind]
    simp only
    cases hc : post.likes.contains actor._id <;> simp [hself]
  · intro commentId comment hfind hself
    unfold likeComment
    rw [hfind]
    simp only
    cases hc : comment.likes.contains actor._id <;> simp [hself]
  · intro postId post content parentCommentId commentId hfind hself
    unfold addComment
    by_cases h1 : contentMissing content = true
    · rw [if_pos h1]
      exact ⟨rfl, rfl⟩
    · rw [if_neg h1, hfind]
      simp only
      split
      · exact ⟨rfl, rfl⟩
      · by_cases h3 : (!commentContentValid (jsTrim (content.getD ""))) = true
        · rw [if_pos h3]
          exact ⟨rfl, rfl⟩
        rw [if_neg h3, if_neg (by simpa using hself)]
        cases parentCommentId <;> exact ⟨rfl, rfl⟩
  · intro postId
    exact key _ (likePost_created s actor postId notificationId now)
  · intro commentId
    exact key _ (likeComment_created s actor commentId notificationId now)
  · intro postId content parentCommentId commentId
    exact key _ (addComment_created s actor postId content parentCommentId commentId
      notificationId now)

theorem self_action_no_notification_witness :
    ((likePost exampleStore alice 11 100 9).2.notifications = exampleStore.notifications ∧
      (likePost exampleStore alice 11 100 9).2.emitted = exampleStore.emitted) ∧
    ((addComment exampleStore alice 11 (some "mine") none 50 100 9).2.notifications
        = exampleStore.notifications ∧
      (addComment exampleStore alice 11 (some "mine") none 50 100 9).2.emitted
        = exampleStore.emitted) :=
  ⟨(self_action_no_notification exampleStore alice 100 9).1 11
      ⟨11, 1, "hello", [], true, [], [], 6⟩ (by decide) (by decide),
   (self_action_no_notification exampleStore alice 100 9).2.2.1 11
      ⟨11, 1, "hello", [], true, [], [], 6⟩ (some "mine") none 50 (by decide) (by decide)⟩

/-! ### Like toggles -/

theorem find_savePost (posts : List Post) (p : Post) (id : Id) (hp : p._id = id)
    (h : (posts.find? (fun q => q._id == id)).isSome = true) :
    (savePost posts p).find? (fun q => q._id == id) = some p := by
  induction posts with
  | nil => simp at h
  | cons x xs ih =>
    unfold savePost at ih ⊢
    rw [List.map_cons]
    by_cases hx : x._id = id
    · have : x._id = p._id := hx.trans hp.symm
      simp [this, hp]
    · have hxp : ¬ x._id = p._id := fun e => hx (e.trans hp)
      rw [if_neg hxp, List.find?_cons_of_neg _ (by simpa using hx)]
      rw [List.find?_cons_of_neg _ (by simpa using hx)] at h
      exact ih h

theorem find_saveComment (comments : List Comment) (c : Comment) (id : Id) (hc : c._id = id)
    (h : (comments.find? (fun q => q._id == id)).isSome = true) :
    (saveComment comments c).find? (fun q => q._id == id) = some c := by
  induction comments with
  | nil => simp at h
  | cons x xs ih =>
    unfold saveComment at ih ⊢
    rw [List.map_cons]
    by_cases hx : x._id = id
    · have : x._id = c._id := hx.trans hc.symm
      simp [this, hc]
    · have hxc : ¬ x._id = c._id := fun e => hx (e.trans hc)
      rw [if_neg hxc, List.find?_cons_of_neg _ (by simpa using hx)]
      rw [List.find?_cons_of_neg _ (by simpa using hx)] at h
      exact ih h

theorem findPostById_id {s : State} {id : Id} {p : Post}
    (h : findPostById s id = some p) : p._id = id := by
  have := List.find?_some h
  simpa using this

theorem findCommentById_id {s : State} {id : Id} {c : Comment}
    (h : findCommentById s id = some c) : c._id = id := by
  have := List.find?_some h
  simpa using this

/-- One like request on a stored post: the response and the stored post
afterwards. -/
theorem likePost_step (s : State) (u : User) (postId notificationId now : Nat) (P : Post)
    (hP : findPostById s postId = some P) :
    (∃ msg, (likePost s u postId notificationId now).1
      = .ok 200 ⟨msg, !(P.likes.contains u._id),
          (toggled P.likes (P.likes.contains u._id) u._id).length⟩) ∧
    findPostById (likePost s u postId notificationId now).2 postId
      = some { P with likes := toggled P.likes (P.likes.contains u._id) u._id } := by
  have hid := findPostById_id hP
  have hsome : (s.posts.find? (fun q => q._id == postId)).isSome = true := by
    unfold findPostById at hP
    rw [hP]; rfl
  unfold likePost
  rw [hP]
  simp only
  cases hc : P.likes.contains u._id
  · simp only [Bool.false_eq_true, if_false, toggled, Bool.not_false]
    refine ⟨⟨_, rfl⟩, ?_⟩
    unfold findPostById
    by_cases hne : P.author ≠ u._id
    · rw [if_pos hne]
      exact find_savePost _ _ _ hid hsome
    · rw [if_neg hne]
      exact find_savePost _ _ _ hid hsome
  · simp only [if_true, toggled, Bool.not_true]
    refine ⟨⟨_, rfl⟩, ?_⟩
    unfold findPostById
    exact find_savePost _ _ _ hid hsome

/-- One like request on a stored comment. -/
theorem likeComment_step (s : State) (u : User) (commentId notificationId now : Nat)
    (C : Comment) (hC : findCommentById s commentId = some C) :
    (∃ msg, (likeComment s u commentId notificationId now).1
      = .ok 200 ⟨msg, !(C.likes.contains u._id),
          (toggled C.likes (C.likes.contains u._id) u._id).length⟩) ∧
    findCommentById (likeComment s u commentId notificationId now).2 commentId
      = some { C with likes := toggled C.likes (C.likes.contains u._id) u._id } := by
  have hid := findCommentById_id hC
  have hsome : (s.comments.find? (fun q => q._id == commentId)).isSome = true := by
    unfold findCommentById at hC
    rw [hC]; rfl
  unfold likeComment
  rw [hC]
  simp only
  cases hc : C.likes.contains u._id
  · simp only [Bool.false_eq_true, if_false, toggled, Bool.not_false]
    refine ⟨⟨_, rfl⟩, ?_⟩
    unfold findCommentById
    by_cases hne : C.author ≠ u._id
    · rw [if_pos hne]
      exact find_saveComment _ _ _ hid hsome
    · rw [if_neg hne]
      exact find_saveComment _ _ _ hid hsome
  · simp only [if_true, toggled, Bool.not_true]
    refine ⟨⟨_, rfl⟩, ?_⟩
    unfold findCommentById
    exact find_saveComment _ _ _ hid hsome

theorem toggled_nodup (l : List Id) (x : Id) (h : l.Nodup) :
    (toggled l (l.contains x) x).Nodup := by
  unfold toggled
  by_cases hx : x ∈ l
  · rw [if_pos (by simpa using hx)]
    exact h.filter _
  · rw [if_neg (by simpa using hx)]
    exact List.Nodup.append h (List.nodup_singleton x) (by simpa using hx)

theorem mem_toggled_self (l : List Id) (x y : Id) :
    y ∈ toggled l (l.contains x) x ↔ (if y = x then x ∉ l else y ∈ l) := by
  rw [mem_toggled]
  by_cases hx : x ∈ l
  · have hc : l.contains x = true := by simpa using hx
    by_cases hy : y = x
    · simp [hc, hy, hx]
    · simp [hc, hy, hx]
  · have hc : l.contains x = false := by simpa using hx
    by_cases hy : y = x
    · simp [hc, hy, hx]
    · simp [hc, hy, hx]

theorem toggleAll_nodup (us : List Id) : ∀ l : List Id, l.Nodup → (toggleAll l us).Nodup := by
  induction us with
  | nil => intro l h; exact h
  | cons u us ih =>
    intro l h
    exact ih _ (toggled_nodup l u h)

theorem mem_toggleAll (us : List Id) (y : Id) : ∀ l : List Id,
    (y ∈ toggleAll l us ↔
      (if y ∈ l then us.count y % 2 = 0 else us.count y % 2 = 1)) := by
  induction us with
  | nil => intro l; simp [toggleAll]
  | cons u us ih =>
    intro l
    unfold toggleAll
    rw [ih, List.count_cons]
    have hm := mem_toggled_self l u y
    by_cases hy : y = u
    · subst hy
      rw [if_pos rfl] at hm
      have hb : (y == y) = true := by simp
      by_cases hl : y ∈ l
      · have hn : y ∉ toggled l (l.contains y) y := fun h => (hm.mp h) hl
        rw [if_neg hn, if_pos hl, hb, if_pos rfl]
        omega
      · have hn : y ∈ toggled l (l.contains y) y := hm.mpr hl
        rw [if_pos hn, if_neg hl, hb, if_pos rfl]
        omega
    · rw [if_neg hy] at hm
      have hb : (u == y) = false := by
        simp only [beq_eq_false_iff_ne, ne_eq]
        exact fun e => hy e.symm
      by_cases hl : y ∈ l
      · rw [if_pos (hm.mpr hl), if_pos hl, hb]
        simp
      · rw [if_neg (fun h => hl (hm.mp h)), if_neg hl, hb]
        simp

theorem togglesBy_eq_count (calls : List LikeCall) (u : Id) :
    togglesBy calls u = (calls.map (fun c => c.currentUser._id)).count u := by
  unfold togglesBy
  rw [List.count, List.countP_map]
  rfl

theorem likePostSeq_find (postId : Id) (calls : List LikeCall) : ∀ (s : State) (P : Post),
    findPostById s postId = some P →
    findPostById (likePostSeq s postId calls) postId
      = some { P with likes := toggleAll P.likes (calls.map (fun c => c.currentUser._id)) } := by
  induction calls with
  | nil => intro s P hP; exact hP
  | cons c cs ih =>
    intro s P hP
    unfold likePostSeq
    have h := (likePost_step s c.currentUser postId c.notificationId c.now P hP).2
    exact ih _ _ h

theorem likeCommentSeq_find (commentId : Id) (calls : List LikeCall) :
    ∀ (s : State) (C : Comment), findCommentById s commentId = some C →
    findCommentById (likeCommentSeq s commentId calls) commentId
      = some { C with likes := toggleAll C.likes (calls.map (fun c => c.currentUser._id)) } := by
  induction calls with
  | nil => intro s C hC; exact hC
  | cons c cs ih =>
    intro s C hC
    unfold likeCommentSeq
    have h := (likeComment_step s c.currentUser commentId c.notificationId c.now C hC).2
    exact ih _ _ h

theorem toggleAll_from_nil (us : List Id) :
    (toggleAll [] us).Nodup ∧ ∀ u, u ∈ toggleAll [] us ↔ Odd (us.count u) := by
  refine ⟨toggleAll_nodup us [] List.nodup_nil, fun u => ?_⟩
  rw [mem_toggleAll, Nat.odd_iff]
  simp

theorem toggled_response (l : List Id) (x : Id) (h : l.Nodup) :
    (toggled l (l.contains x) x).length = (toggled l (l.contains x) x).toFinset.card ∧
    ((!(l.contains x)) = true ↔ x ∈ toggled l (l.contains x) x) := by
  refine ⟨(List.toFinset_card_of_nodup (toggled_nodup l x h)).symm, ?_⟩
  rw [mem_toggled_self]
  simp

/-- C12: from a post (or comment) with an empty likes list, after any sequence
`calls` of like requests the likes list has no duplicate and contains `u`
exactly when `u` made an odd number of the requests; and the response of a
further request `c` has `likeCount` equal to the cardinality of the like set
after it and `isLiked` equal to the membership of the caller in that set. -/
theorem likes_after_toggles (s : State) (calls : List LikeCall) (c : LikeCall) :
    (∀ postId P, findPostById s postId = some P → P.likes = [] →
      ∃ P1, findPostById (likePostSeq s postId calls) postId = some P1 ∧
        P1.likes.Nodup ∧ (∀ u, u ∈ P1.likes ↔ Odd (togglesBy calls u)) ∧
        ∃ body P2,
          (likePost (likePostSeq s postId calls) c.currentUser postId c.notificationId
            c.now).1 = .ok 200 body ∧
          findPostById (likePost (likePostSeq s postId calls) c.currentUser postId
            c.notificationId c.now).2 postId = some P2 ∧
          body.likeCount = P2.likes.toFinset.card ∧
          (body.isLiked = true ↔ c.currentUser._id ∈ P2.likes)) ∧
    (∀ commentId C, findCommentById s commentId = some C → C.likes = [] →
      ∃ C1, findCommentById (likeCommentSeq s commentId calls) commentId = some C1 ∧
        C1.likes.Nodup ∧ (∀ u, u ∈ C1.likes ↔ Odd (togglesBy calls u)) ∧
        ∃ body C2,
          (likeComment (likeCommentSeq s commentId calls) c.currentUser commentId
            c.notificationId c.now).1 = .ok 200 body ∧
          findCommentById (likeComment (likeCommentSeq s commentId calls) c.currentUser
            commentId c.notificationId c.now).2 commentId = some C2 ∧
          body.likeCount = C2.likes.toFinset.card ∧
          (body.isLiked = true ↔ c.currentUser._id ∈ C2.likes)) := by
  constructor
  · intro postId P hP hnil
    have hfind := likePostSeq_find postId calls s P hP
    obtain ⟨hnd, hmem⟩ := toggleAll_from_nil (calls.map (fun c => c.currentUser._id))
    rw [hnil] at hfind
    refine ⟨_, hfind, hnd, fun u => ?_, ?_⟩
    · rw [togglesBy_eq_count]
      exact hmem u
    · obtain ⟨⟨msg, hresp⟩, hP2⟩ :=
        likePost_step _ c.currentUser postId c.notificationId c.now _ hfind
      obtain ⟨hcard, hliked⟩ := toggled_response _ c.currentUser._id hnd
      exact ⟨_, _, hresp, hP2, hcard, hliked⟩
  · intro commentId C hC hnil
    have hfind := likeCommentSeq_find commentId calls s C hC
    obtain ⟨hnd, hmem⟩ := toggleAll_from_nil (calls.map (fun c => c.currentUser._id))
    rw [hnil] at hfind
    refine ⟨_, hfind, hnd, fun u => ?_, ?_⟩
    · rw [togglesBy_eq_count]
      exact hmem u
    · obtain ⟨⟨msg, hresp⟩, hC2⟩ :=
        likeComment_step _ c.currentUser commentId c.notificationId c.now _ hfind
      obtain ⟨hcard, hliked⟩ := toggled_response _ c.currentUser._id hnd
      exact ⟨_, _, hresp, hC2, hcard, hliked⟩

theorem likes_after_toggles_witness :
    ∃ P1, findPostById
        (likePostSeq exampleStore 11 [⟨bob, 100, 9⟩, ⟨carol, 101, 9⟩, ⟨bob, 102, 9⟩]) 11
        = some P1 ∧
      P1.likes.Nodup ∧
      (∀ u, u ∈ P1.likes ↔
        Odd (togglesBy [⟨bob, 100, 9⟩, ⟨carol, 101, 9⟩, ⟨bob, 102, 9⟩] u)) ∧
      ∃ body P2,
        (likePost (likePostSeq exampleStore 11 [⟨bob, 100, 9⟩, ⟨carol, 101, 9⟩, ⟨bob, 102, 9⟩])
          alice 11 103 9).1 = .ok 200 body ∧
        findPostById (likePost
          (likePostSeq exampleStore 11 [⟨bob, 100, 9⟩, ⟨carol, 101, 9⟩, ⟨bob, 102, 9⟩])
          alice 11 103 9).2 11 = some P2 ∧
        body.likeCount = P2.likes.toFinset.card ∧
        (body.isLiked = true ↔ alice._id ∈ P2.likes) :=
  (likes_after_toggles exampleStore [⟨bob, 100, 9⟩, ⟨carol, 101, 9⟩, ⟨bob, 102, 9⟩]
    ⟨alice, 103, 9⟩).1 11 ⟨11, 1, "hello", [], true, [], [], 6⟩ (by decide) rfl

/-! ### Creating, updating and deleting posts -/

/-- Blank content is refused whatever files are attached. -/
theorem createPost_blank (contentMax : Nat) (s : State) (u : User) (content : Option String)
    (isPublic : Option BodyValue) (files : Option (List String)) (postId now : Nat)
    (h : contentMissing content = true) :
    createPost contentMax s u content isPublic files postId now
      = (.error 400 "Post content is required", s) := by
  unfold createPost
  simp only [h, if_true]

/-- C13 (failing input): the client form submits a post with one image and
blank content, and the create handler refuses it with 400 and stores nothing. -/
theorem createPost_rejects_image_only :
    clientSubmits "  " ["a.png"] = true ∧
    createPost 1000 exampleStore alice (some (jsTrim "  ")) (some (.str "true"))
        (some ["a.png"]) 20 9
      = (.error 400 "Post content is required", exampleStore) := by
  decide

/-- C14 (failing input): a post created with `isPublic` omitted, or given as
the boolean `true`, is stored private and is absent from the anonymous feed;
an update with the boolean `true` makes a public post private. -/
theorem createPost_default_is_private :
    (createPost 1000 exampleStore alice (some "hello") none none 20 9).1
      = .ok 201 ⟨20, 1, "hello", [], false, [], [], 9⟩ ∧
    (⟨20, 1, "hello", [], false, [], [], 9⟩ : Post) ∉
      (publicFeed (createPost 1000 exampleStore alice (some "hello") none none 20 9).2
        1 10).items ∧
    (createPost 1000 exampleStore alice (some "hello") (some (.bool true)) none 20 9).1
      = .ok 201 ⟨20, 1, "hello", [], false, [], [], 9⟩ ∧
    (createPost 1000 exampleStore alice (some "hello") (some (.str "true")) none 20 9).1
      = .ok 201 ⟨20, 1, "hello", [], true, [], [], 9⟩ ∧
    (updatePost 1000 exampleStore alice 11 none (some (.bool true))).1
      = .ok 200 ⟨11, 1, "hello", [], false, [], [], 6⟩ := by
  decide

theorem deletePostById_eq_erase (posts : List Post) (id : Id) (P : Post)
    (h : posts.find? (fun q => q._id == id) = some P) :
    deletePostById posts id = posts.erase P := by
  unfold deletePostById
  induction posts with
  | nil => simp at h
  | cons x xs ih =>
    by_cases hx : x._id = id
    · have hxP : x = P := by
        rw [List.find?_cons_of_pos _ (by simpa using hx)] at h
        exact Option.some.inj h
      subst hxP
      rw [List.eraseP_cons_of_pos (by simpa using hx), List.erase_cons_head]
    · rw [List.find?_cons_of_neg _ (by simpa using hx)] at h
      have hne : x ≠ P := fun e => hx (by
        have := List.find?_some h
        rw [e]; simpa using this)
      rw [List.eraseP_cons_of_neg (by simpa using hx), List.erase_cons_tail (by simpa using hne),
        ih h]

/-- C15: update and delete of a post answer 404 for an id no post has and 403
to a caller who is not the author, leaving the store unchanged; a delete by the
author removes that post record and nothing else; an update by the author leaves
the store unchanged or rewrites the documents with that id to the post with new
content and/or visibility, all other fields and records kept. -/
theorem post_mutation_authorization (contentMax : Nat) (s : State) (reqUser : User)
    (postId : Id) (content : Option String) (isPublic : Option BodyValue) :
    (findPostById s postId = none →
      updatePost contentMax s reqUser postId content isPublic
        = (.error 404 "Post not found", s) ∧
      deletePost s reqUser postId = (.error 404 "Post not found", s)) ∧
    (∀ P, findPostById s postId = some P → P.author ≠ reqUser._id →
      updatePost contentMax s reqUser postId content isPublic
        = (.error 403 "Not authorized", s) ∧
      deletePost s reqUser postId = (.error 403 "Not authorized", s)) ∧
    (∀ P, findPostById s postId = some P → P.author = reqUser._id →
      deletePost s reqUser postId
        = (.ok 200 "Post deleted successfully", { s with posts := s.posts.erase P })) ∧
    (∀ P, findPostById s postId = some P → P.author = reqUser._id →
      (updatePost contentMax s reqUser postId content isPublic).2 = s ∨
      ∃ newContent newIsPublic,
        (updatePost contentMax s reqUser postId content isPublic)
          = (.ok 200 { P with content := newContent, isPublic := newIsPublic },
             { s with
               posts := s.posts.map (fun x =>
                 if x._id = postId then
                   { P with content := newContent, isPublic := newIsPublic }
                 else x) })) := by
  refine ⟨?_, ?_, ?_, ?_⟩
  · intro h
    unfold updatePost deletePost
    rw [h]
    exact ⟨rfl, rfl⟩
  · intro P hP hne
    unfold updatePost deletePost
    rw [hP]
    simp [hne]
  · intro P hP hown
    unfold deletePost
    rw [hP]
    simp only [ne_eq, hown, not_true_eq_false, if_false]
    unfold findPostById at hP
    rw [deletePostById_eq_erase _ _ _ hP]
  · intro P hP hown
    have hid := findPostById_id hP
    subst hid
    have hown2 : ¬ P.author ≠ reqUser._id := not_not.mpr hown
    unfold updatePost
    rw [hP]
    simp only
    rw [if_neg hown2]
    cases content with
    | none =>
      right
      cases isPublic with
      | none => exact ⟨P.content, P.isPublic, rfl⟩
      | some v => exact ⟨P.content, isTrueString v, rfl⟩
    | some c =>
      by_cases h1 : ((some c).isSome && contentMissing (some c)) = true
      · left
        rw [if_pos h1]
      · rw [if_neg h1]
        cases isPublic with
        | none =>
          by_cases h2 : ((some c).isSome && decide (jsLength (jsTrim c) > contentMax)) = true
          · left
            rw [if_pos h2]
          · right
            rw [if_neg h2]
            exact ⟨jsTrim c, P.isPublic, rfl⟩
        | some v =>
          by_cases h2 : ((some c).isSome && decide (jsLength (jsTrim c) > contentMax)) = true
          · left
            rw [if_pos h2]
          · right
            rw [if_neg h2]
            exact ⟨jsTrim c, isTrueString v, rfl⟩

theorem post_mutation_authorization_witness :
    (updatePost 1000 exampleStore bob 11 (some "hacked") none
        = (.error 403 "Not authorized", exampleStore) ∧
      deletePost exampleStore bob 11 = (.error 403 "Not authorized", exampleStore)) ∧
    deletePost exampleStore alice 11
      = (.ok 200 "Post deleted successfully",
         { exampleStore with
           posts := exampleStore.posts.erase ⟨11, 1, "hello", [], true, [], [], 6⟩ }) :=
  ⟨(post_mutation_authorization 1000 exampleStore bob 11 (some "hacked") none).2.1
      ⟨11, 1, "hello", [], true, [], [], 6⟩ (by decide) (by decide),
   (post_mutation_authorization 1000 exampleStore alice 11 none none).2.2.1
      ⟨11, 1, "hello", [], true, [], [], 6⟩ (by decide) (by decide)⟩

/-! ### Deleting comments -/

theorem comments_eraseP_eq_erase (comments : List Comment) (id : Id) (C : Comment)
    (h : comments.find? (fun q => q._id == id) = some C) :
    comments.eraseP (fun q => q._id == id) = comments.erase C := by
  induction comments with
  | nil => simp at h
  | cons x xs ih =>
    by_cases hx : x._id = id
    · have hxC : x = C := by
        rw [List.find?_cons_of_pos _ (by simpa using hx)] at h
        exact Option.some.inj h
      subst hxC
      rw [List.eraseP_cons_of_pos (by simpa using hx), List.erase_cons_head]
    · rw [List.find?_cons_of_neg _ (by simpa using hx)] at h
      have hne : x ≠ C := fun e => hx (by
        have := List.find?_some h
        rw [e]; simpa using this)
      rw [List.eraseP_cons_of_neg (by simpa using hx), List.erase_cons_tail (by simpa using hne),
        ih h]

/-- The store after the three writes of a comment deletion. -/
theorem removeComment_eq (s : State) (cid : Id) (C : Comment)
    (hC : findCommentById s cid = some C) :
    removeComment s C =
      { s with
        posts := s.posts.map (fun p =>
          if p._id = C.post then
            { p with comments := p.comments.filter (fun id => id != cid) }
          else p)
        comments := (s.comments.erase C).map (fun c =>
          if some c._id = C.parentComment then
            { c with replies := c.replies.filter (fun id => id != cid) }
          else c) } := by
  have hid := findCommentById_id hC
  subst hid
  unfold findCommentById at hC
  unfold removeComment
  cases hpc : C.parentComment with
  | none =>
    simp [comments_eraseP_eq_erase _ _ _ hC]
  | some parentId =>
    simp only [Option.some.injEq]
    rw [List.eraseP_map]
    have hcomp : ((fun c : Comment => c._id == C._id) ∘ fun c : Comment =>
        if c._id = parentId then
          { c with replies := c.replies.filter (fun id => id != C._id) }
        else c) = fun c : Comment => c._id == C._id := by
      funext c
      simp only [Function.comp]
      by_cases h : c._id = parentId
      · rw [if_pos h]
      · rw [if_neg h]
    rw [hcomp, comments_eraseP_eq_erase _ _ _ hC]

theorem deleteComment_ok_inv {s s1 : State} {u : User} {cid : Id} {C : Comment} {msg : String}
    (hC : findCommentById s cid = some C)
    (hok : deleteComment s u cid = (.ok 200 msg, s1)) : s1 = removeComment s C := by
  unfold deleteComment at hok
  rw [hC] at hok
  simp only at hok
  split at hok
  · split at hok
    · cases hok
    · split at hok
      · cases hok
      · injection hok with _ h2
        exact h2.symm
  · injection hok with _ h2
    exact h2.symm

/-- When the post of the comment is stored, the delete succeeds exactly for the
author of the comment and the author of the post; any other caller gets 403 and
the store is unchanged. -/
theorem deleteComment_with_post (s : State) (u : User) (cid : Id) (C : Comment) (P : Post)
    (hC : findCommentById s cid = some C) (hP : findPostById s C.post = some P) :
    ((C.author = u._id ∨ P.author = u._id) →
      deleteComment s u cid = (.ok 200 "Comment deleted successfully", removeComment s C)) ∧
    (¬ (C.author = u._id ∨ P.author = u._id) →
      deleteComment s u cid = (.error 403 "Not authorized", s)) := by
  unfold deleteComment
  rw [hC]
  simp only [hP]
  by_cases h1 : C.author = u._id
  · simp [h1]
  · by_cases h2 : P.author = u._id
    · simp [h1, h2]
    · simp [h1, h2]

/-- C16 (failing input): comment 50 (by bob) sits on post 11, which alice has
deleted. Carol, who wrote neither, asks to delete comment 50 and gets 500, not
403; so does alice, the author of the deleted post; bob, the author of the
comment, succeeds. -/
theorem deleteComment_orphan_500 :
    findCommentById orphanStore 50 = some ⟨50, 2, 11, "c1", [], none, [51], 9⟩ ∧
    findPostById orphanStore 11 = none ∧
    deleteComment orphanStore carol 50 = (.error 500 "Server error", orphanStore) ∧
    deleteComment orphanStore alice 50 = (.error 500 "Server error", orphanStore) ∧
    (deleteComment orphanStore bob 50).1 = .ok 200 "Comment deleted successfully" := by
  decide

theorem eq_of_comment_id_eq {s : State} (hids : uniqueCommentIds s) {x y : Comment}
    (hx : x ∈ s.comments) (hy : y ∈ s.comments) (h : x._id = y._id) : x = y :=
  List.inj_on_of_nodup_map hids hx hy h

/-- C17: a successful delete of the stored comment `C` erases the record of
`C`, pulls its id from the comments of its post and from the replies of its
parent, and changes nothing else; replies to `C` stay stored and linked in the
post; and if the id of `C` was listed only in its post and in its parent, no
comments list and no replies list contains it afterwards. -/
theorem deleteComment_effect (s s1 : State) (u : User) (cid : Id) (C : Comment) (msg : String)
    (hC : findCommentById s cid = some C)
    (hok : deleteComment s u cid = (.ok 200 msg, s1)) :
    s1.comments = (s.comments.erase C).map (fun c =>
      if some c._id = C.parentComment then
        { c with replies := c.replies.filter (fun id => id != cid) }
      else c) ∧
    s1.posts = s.posts.map (fun p =>
      if p._id = C.post then { p with comments := p.comments.filter (fun id => id != cid) }
      else p) ∧
    s1.users = s.users ∧ s1.notifications = s.notifications ∧ s1.emitted = s.emitted ∧
    (uniqueCommentIds s → findCommentById s1 cid = none) ∧
    (∀ R ∈ s.comments, R._id ≠ cid → R.parentComment = some cid →
      (∃ R1 ∈ s1.comments, R1._id = R._id ∧ R1.parentComment = some cid) ∧
      (∀ X ∈ s.posts, R._id ∈ X.comments →
        ∃ X1 ∈ s1.posts, X1._id = X._id ∧ R._id ∈ X1.comments)) ∧
    ((∀ X ∈ s.posts, cid ∈ X.comments → X._id = C.post) →
      (∀ Y ∈ s.comments, cid ∈ Y.replies → C.parentComment = some Y._id) →
      (∀ X ∈ s1.posts, cid ∉ X.comments) ∧ (∀ Y ∈ s1.comments, cid ∉ Y.replies)) := by
  have hs1 := deleteComment_ok_inv hC hok
  rw [removeComment_eq s cid C hC] at hs1
  have hCid := findCommentById_id hC
  have hCmem : C ∈ s.comments := List.mem_of_find?_eq_some hC
  subst hs1
  refine ⟨rfl, rfl, rfl, rfl, rfl, ?_, ?_, ?_⟩
  · intro hids
    unfold findCommentById
    rw [List.find?_eq_none]
    intro x hx
    simp only [List.mem_map] at hx
    obtain ⟨Y, hY, rfl⟩ := hx
    have hYid : (if some Y._id = C.parentComment then
        { Y with replies := Y.replies.filter (fun id => id != cid) } else Y)._id = Y._id := by
      split <;> rfl
    rw [hYid]
    have hnd : s.comments.Nodup := List.Nodup.of_map _ hids
    have hYC := (hnd.mem_erase_iff.mp hY)
    intro hcontra
    have : Y._id = C._id := by rw [hCid]; simpa using hcontra
    exact hYC.1 (eq_of_comment_id_eq hids hYC.2 hCmem this)
  · intro R hR hRid hRpar
    have hRC : R ≠ C := fun e => hRid (by rw [e]; exact hCid)
    have hRe : R ∈ s.comments.erase C := (List.mem_erase_of_ne hRC).mpr hR
    constructor
    · refine ⟨_, List.mem_map_of_mem _ hRe, ?_, ?_⟩
      · split <;> rfl
      · split <;> exact hRpar
    · intro X hX hRX
      refine ⟨_, List.mem_map_of_mem _ hX, ?_, ?_⟩
      · split <;> rfl
      · split
        · simp only [List.mem_filter]
          exact ⟨hRX, by simpa using hRid⟩
        · exact hRX
  · intro hposts hreplies
    constructor
    · intro X1 hX1
      simp only [List.mem_map] at hX1
      obtain ⟨X, hX, rfl⟩ := hX1
      by_cases hXp : X._id = C.post
      · rw [if_pos hXp]
        simp [List.mem_filter]
      · rw [if_neg hXp]
        exact fun h => hXp (hposts X hX h)
    · intro Y1 hY1
      simp only [List.mem_map] at hY1
      obtain ⟨Y, hY, rfl⟩ := hY1
      have hYmem : Y ∈ s.comments := List.mem_of_mem_erase hY
      by_cases hYp : some Y._id = C.parentComment
      · rw [if_pos hYp]
        simp [List.mem_filter]
      · rw [if_neg hYp]
        exact fun h => hYp (hreplies Y hYmem h).symm

theorem deleteComment_effect_witness :
    (deleteComment commentStore bob 50).2.comments
      = (commentStore.comments.erase ⟨50, 2, 11, "c1", [], none, [51], 9⟩).map (fun c =>
        if some c._id = (none : Option Id) then
          { c with replies := c.replies.filter (fun id => id != 50) }
        else c) ∧
    (deleteComment commentStore bob 50).2.posts = commentStore.posts.map (fun p =>
      if p._id = 11 then { p with comments := p.comments.filter (fun id => id != 50) }
      else p) ∧
    (deleteComment commentStore bob 50).2.users = commentStore.users ∧
    (deleteComment commentStore bob 50).2.notifications = commentStore.notifications ∧
    (deleteComment commentStore bob 50).2.emitted = commentStore.emitted ∧
    (uniqueCommentIds commentStore →
      findCommentById (deleteComment commentStore bob 50).2 50 = none) ∧
    (∀ R ∈ commentStore.comments, R._id ≠ 50 → R.parentComment = some 50 →
      (∃ R1 ∈ (deleteComment commentStore bob 50).2.comments,
        R1._id = R._id ∧ R1.parentComment = some 50) ∧
      (∀ X ∈ commentStore.posts, R._id ∈ X.comments →
        ∃ X1 ∈ (deleteComment commentStore bob 50).2.posts,
          X1._id = X._id ∧ R._id ∈ X1.comments)) ∧
    ((∀ X ∈ commentStore.posts, 50 ∈ X.comments → X._id = 11) →
      (∀ Y ∈ commentStore.comments, 50 ∈ Y.replies → (none : Option Id) = some Y._id) →
      (∀ X ∈ (deleteComment commentStore bob 50).2.posts, 50 ∉ X.comments) ∧
      (∀ Y ∈ (deleteComment commentStore bob 50).2.comments, 50 ∉ Y.replies)) :=
  deleteComment_effect commentStore (deleteComment commentStore bob 50).2 bob 50
    ⟨50, 2, 11, "c1", [], none, [51], 9⟩ "Comment deleted successfully" (by decide) (by decide)

/-! ### Deleting posts -/

theorem deletePost_ok_inv {s s1 : State} {u : User} {postId : Id} {P : Post} {msg : String}
    (hP : findPostById s postId = some P)
    (hok : deletePost s u postId = (.ok 200 msg, s1)) :
    s1 = { s with posts := s.posts.erase P } := by
  unfold deletePost at hok
  rw [hP] at hok
  simp only at hok
  split at hok
  · cases hok
  · injection hok with _ h2
    unfold findPostById at hP
    rw [← h2, deletePostById_eq_erase _ _ _ hP]

theorem eq_of_post_id_eq {s : State} (hids : uniquePostIds s) {x y : Post}
    (hx : x ∈ s.posts) (hy : y ∈ s.posts) (h : x._id = y._id) : x = y :=
  List.inj_on_of_nodup_map hids hx hy h

/-- C18: after a successful delete of the stored post `P` (post ids being
unique) no page of the feed, of the anonymous feed or of a per-user listing
holds a post with the id of `P`, the single-post read answers 404, and the
comments and notifications collections (and users) are what they were. -/
theorem deletePost_removes (s s1 : State) (u : User) (P : Post) (msg : String)
    (hids : uniquePostIds s) (hP : findPostById s P._id = some P)
    (hok : deletePost s u P._id = (.ok 200 msg, s1)) :
    (∀ V page limit, ∀ q ∈ (feed s1 V page limit).items, q._id ≠ P._id) ∧
    (∀ page limit, ∀ q ∈ (publicFeed s1 page limit).items, q._id ≠ P._id) ∧
    (∀ reqUser userId page limit,
      ∀ q ∈ (userPosts s1 reqUser userId page limit).items, q._id ≠ P._id) ∧
    (∀ viewer, getPost s1 viewer P._id = .error 404 "Post not found") ∧
    s1.comments = s.comments ∧ s1.notifications = s.notifications ∧
    s1.users = s.users ∧ s1.emitted = s.emitted := by
  have hs1 := deletePost_ok_inv hP hok
  have hPmem : P ∈ s.posts := List.mem_of_find?_eq_some hP
  have hnd : s.posts.Nodup := List.Nodup.of_map _ hids
  have hgone : ∀ q ∈ s1.posts, q._id ≠ P._id := by
    intro q hq hid
    rw [hs1] at hq
    have h := hnd.mem_erase_iff.mp hq
    exact h.1 (eq_of_post_id_eq hids h.2 hPmem hid)
  have hpage : ∀ (f : Post → Bool) (skip limit : Nat),
      ∀ q ∈ ((sortCreatedAtDesc (s1.posts.filter f)).drop skip).take limit, q._id ≠ P._id := by
    intro f skip limit q hq
    have h1 := (sortCreatedAtDesc_perm _).mem_iff.mp (mem_page hq)
    exact hgone q (List.mem_filter.mp h1).1
  refine ⟨?_, ?_, ?_, ?_, ?_, ?_, ?_, ?_⟩
  · intro V page limit q hq
    exact hpage _ _ _ q hq
  · intro page limit q hq
    exact hpage _ _ _ q hq
  · intro reqUser userId page limit q hq
    exact hpage _ _ _ q hq
  · intro viewer
    have hnone : findPostById s1 P._id = none := by
      unfold findPostById
      rw [List.find?_eq_none]
      intro q hq
      simpa using hgone q hq
    unfold getPost
    rw [hnone]
  · rw [hs1]
  · rw [hs1]
  · rw [hs1]
  · rw [hs1]

theorem deletePost_removes_witness :
    (∀ V page limit,
      ∀ q ∈ (feed (deletePost commentStore alice 11).2 V page limit).items, q._id ≠ 11) ∧
    (∀ page limit,
      ∀ q ∈ (publicFeed (deletePost commentStore alice 11).2 page limit).items, q._id ≠ 11) ∧
    (∀ reqUser userId page limit,
      ∀ q ∈ (userPosts (deletePost commentStore alice 11).2 reqUser userId page limit).items,
        q._id ≠ 11) ∧
    (∀ viewer,
      getPost (deletePost commentStore alice 11).2 viewer 11 = .error 404 "Post not found") ∧
    (deletePost commentStore alice 11).2.comments = commentStore.comments ∧
    (deletePost commentStore alice 11).2.notifications = commentStore.notifications ∧
    (deletePost commentStore alice 11).2.users = commentStore.users ∧
    (deletePost commentStore alice 11).2.emitted = commentStore.emitted :=
  deletePost_removes commentStore (deletePost commentStore alice 11).2 alice
    ⟨11, 1, "hello", [], true, [], [50, 51], 6⟩ "Post deleted successfully"
    (by decide) (by decide) (by decide)

/-! ### Adding comments -/

set_option maxRecDepth 100000

/-- C19 (counterexample): bob comments on the stored post 11 with 501
characters of text and no parent; none of the three error cases applies, yet the
answer is 500 and nothing is stored. -/
theorem addComment_long_content_500 :
    contentMissing (some longContent) = false ∧
    (findPostById exampleStore 11).isSome = true ∧
    addComment exampleStore bob 11 (some longContent) none 50 100 9
      = (.error 500 "Server error", exampleStore) := by
  decide

/-- C19 (as the code behaves): addComment answers 400 for missing or blank
content; otherwise 404 when the post does not exist; otherwise 404 when a parent
id is given and no comment has it; otherwise 500 when the trimmed content
exceeds the 500 characters of the schema; in each of these cases the store is
unchanged; in every other case it answers 201. -/
theorem addComment_errors (s : State) (u : User) (postId : Id) (content : Option String)
    (parentCommentId : Option Id) (commentId notificationId now : Nat) :
    (contentMissing content = true →
      addComment s u postId content parentCommentId commentId notificationId now
        = (.error 400 "Comment content is required", s)) ∧
    (contentMissing content = false → findPostById s postId = none →
      addComment s u postId content parentCommentId commentId notificationId now
        = (.error 404 "Post not found", s)) ∧
    (contentMissing content = false → (findPostById s postId).isSome = true →
      (∃ parentId, parentCommentId = some parentId ∧ findCommentById s parentId = none) →
      addComment s u postId content parentCommentId commentId notificationId now
        = (.error 404 "Parent comment not found", s)) ∧
    (contentMissing content = false → (findPostById s postId).isSome = true →
      (∀ parentId, parentCommentId = some parentId →
        (findCommentById s parentId).isSome = true) →
      commentContentValid (jsTrim (content.getD "")) = false →
      addComment s u postId content parentCommentId commentId notificationId now
        = (.error 500 "Server error", s)) ∧
    (contentMissing content = false → (findPostById s postId).isSome = true →
      (∀ parentId, parentCommentId = some parentId →
        (findCommentById s parentId).isSome = true) →
      commentContentValid (jsTrim (content.getD "")) = true →
      ∃ body s1,
        addComment s u postId content parentCommentId commentId notificationId now
          = (.ok 201 body, s1)) := by
  have hparent : (∀ parentId, parentCommentId = some parentId →
      (findCommentById s parentId).isSome = true) →
      (match parentCommentId with
        | some parentId => (findCommentById s parentId).isNone
        | none => false) = false := by
    intro h
    cases parentCommentId with
    | none => rfl
    | some pid =>
      have := h pid rfl
      cases hf : findCommentById s pid with
      | none => rw [hf] at this; cases this
      | some c => simp [hf]
  refine ⟨?_, ?_, ?_, ?_, ?_⟩
  · intro h
    unfold addComment
    rw [if_pos h]
  · intro h hnone
    unfold addComment
    rw [if_neg (by simp [h]), hnone]
  · rintro h hpost ⟨pid, rfl, hpar⟩
    obtain ⟨post, hpost⟩ := Option.isSome_iff_exists.mp hpost
    unfold addComment
    rw [if_neg (by simp [h]), hpost]
    simp [hpar]
  · intro h hpost hpar hinvalid
    obtain ⟨post, hpost⟩ := Option.isSome_iff_exists.mp hpost
    unfold addComment
    rw [if_neg (by simp [h]), hpost]
    simp only [hparent hpar, Bool.false_eq_true, if_false, hinvalid, Bool.not_false, if_true]
  · intro h hpost hpar hvalid
    obtain ⟨post, hpost⟩ := Option.isSome_iff_exists.mp hpost
    unfold addComment
    rw [if_neg (by simp [h]), hpost]
    simp only [hparent hpar, Bool.false_eq_true, if_false, hvalid, Bool.not_true]
    exact ⟨_, _, rfl⟩

theorem addComment_errors_witness :
    (addComment exampleStore bob 11 (some " \n ") none 50 100 9
        = (.error 400 "Comment content is required", exampleStore)) ∧
    (addComment exampleStore bob 99 (some "hi") none 50 100 9
        = (.error 404 "Post not found", exampleStore)) ∧
    (addComment exampleStore bob 11 (some "hi") (some 77) 50 100 9
        = (.error 404 "Parent comment not found", exampleStore)) ∧
    (addComment exampleStore bob 11 (some longContent) none 50 100 9
        = (.error 500 "Server error", exampleStore)) ∧
    (∃ body s1, addComment exampleStore bob 11 (some "hi") none 50 100 9
        = (.ok 201 body, s1)) :=
  ⟨(addComment_errors exampleStore bob 11 (some " \n ") none 50 100 9).1 (by decide),
   (addComment_errors exampleStore bob 99 (some "hi") none 50 100 9).2.1 (by decide)
     (by decide),
   (addComment_errors exampleStore bob 11 (some "hi") (some 77) 50 100 9).2.2.1 (by decide)
     (by decide) ⟨77, rfl, by decide⟩,
   (addComment_errors exampleStore bob 11 (some longContent) none 50 100 9).2.2.2.1
     (by decide) (by decide) (fun _ h => by cases h) (by decide),
   (addComment_errors exampleStore bob 11 (some "hi") none 50 100 9).2.2.2.2
     (by decide) (by decide) (fun _ h => by cases h) (by decide)⟩

/-- The store of a successful addComment, before the notification step. -/
theorem addComment_ok_inv {s s1 : State} {u : User} {postId : Id} {content : Option String}
    {parentCommentId : Option Id} {commentId notificationId now : Nat} {post : Post}
    {body : Comment} (hP : findPostById s postId = some post)
    (hok : addComment s u postId content parentCommentId commentId notificationId now
      = (.ok 201 body, s1)) :
    contentMissing content = false ∧
    (∀ parentId, parentCommentId = some parentId →
      (findCommentById s parentId).isSome = true) ∧
    body = { _id := commentId, author := u._id, post := postId,
             content := jsTrim (content.getD ""), likes := [],
             parentComment := parentCommentId, replies := [], createdAt := now } ∧
    s1.users = s.users ∧
    s1.posts = savePost s.posts { post with comments := post.comments ++ [commentId] } ∧
    (parentCommentId = none → s1.comments = s.comments ++ [body]) ∧
    (∀ parentId, parentCommentId = some parentId →
      s1.comments = (s.comments ++ [body]).map (fun c =>
        if c._id = parentId then { c with replies := c.replies ++ [commentId] } else c)) := by
  unfold addComment at hok
  by_cases h1 : contentMissing content = true
  · rw [if_pos h1] at hok
    cases hok
  rw [if_neg h1, hP] at hok
  simp only at hok
  split at hok
  · cases hok
  rename_i h2
  by_cases h3 : (!commentContentValid (jsTrim (content.getD ""))) = true
  · rw [if_pos h3] at hok
    cases hok
  rw [if_neg h3] at hok
  injection hok with hb hs
  injection hb with _ hb
  subst hb
  subst hs
  refine ⟨by simpa using h1, ?_, rfl, ?_, ?_, ?_, ?_⟩
  · intro pid hpid
    subst hpid
    simp only at h2
    cases hf : findCommentById s pid with
    | none => rw [hf] at h2; simp at h2
    | some c => rfl
  · split <;> (cases parentCommentId <;> rfl)
  · split <;> (cases parentCommentId <;> rfl)
  · intro hnone
    subst hnone
    split <;> rfl
  · intro pid hpid
    subst hpid
    split <;> rfl

/-- C20: a successful addComment with a fresh comment id stores one new
Comment (author the caller, the given post, the trimmed content, the given
parent, empty likes and replies) at the end of the collection, appends its id to
the comments of the post, appends its id to the replies of the parent exactly
when a parent id was given, and changes no other comment, post or user. -/
theorem addComment_effect (s s1 : State) (u : User) (postId : Id) (content : Option String)
    (parentCommentId : Option Id) (commentId notificationId now : Nat) (post : Post)
    (body : Comment) (hP : findPostById s postId = some post)
    (hfresh : findCommentById s commentId = none)
    (hok : addComment s u postId content parentCommentId commentId notificationId now
      = (.ok 201 body, s1)) :
    (∃ c, content = some c ∧
      body = { _id := commentId, author := u._id, post := postId, content := jsTrim c,
               likes := [], parentComment := parentCommentId, replies := [],
               createdAt := now }) ∧
    s1.comments = s.comments.map (fun x =>
        if some x._id = parentCommentId then { x with replies := x.replies ++ [commentId] }
        else x) ++ [body] ∧
    (parentCommentId = none → s1.comments = s.comments ++ [body]) ∧
    s1.posts = s.posts.map (fun x =>
      if x._id = postId then { post with comments := post.comments ++ [commentId] } else x) ∧
    s1.users = s.users := by
  obtain ⟨hcontent, hpar, hbody, husers, hposts, hcnone, hcsome⟩ := addComment_ok_inv hP hok
  have hpid := findPostById_id hP
  refine ⟨?_, ?_, ?_, ?_, husers⟩
  · cases content with
    | none => simp [contentMissing] at hcontent
    | some c => exact ⟨c, rfl, hbody⟩
  · cases hpc : parentCommentId with
    | none =>
      rw [hcnone hpc]
      simp
    | some pid =>
      have hne : ¬ commentId = pid := by
        intro e
        have := hpar pid hpc
        rw [← e, hfresh] at this
        cases this
      have hbid : body._id = commentId := by rw [hbody]
      rw [hcsome pid hpc]
      simp only [List.map_append, List.map_cons, List.map_nil, hbid, hne, if_false,
        Option.some.injEq]
  · exact hcnone
  · rw [hposts]
    unfold savePost
    simp only [hpid]

theorem addComment_effect_witness :
    (∃ c, some "  r1 " = some c ∧
      (⟨51, 3, 11, "r1", [], some 50, [], 9⟩ : Comment)
        = { _id := 51, author := carol._id, post := 11, content := jsTrim c, likes := [],
            parentComment := some 50, replies := [], createdAt := 9 }) ∧
    (addComment (addComment exampleStore bob 11 (some "c1") none 50 100 9).2 carol 11
        (some "  r1 ") (some 50) 51 101 9).2.comments
      = (addComment exampleStore bob 11 (some "c1") none 50 100 9).2.comments.map (fun x =>
          if some x._id = some 50 then { x with replies := x.replies ++ [51] } else x)
        ++ [⟨51, 3, 11, "r1", [], some 50, [], 9⟩] ∧
    ((some 50 : Option Id) = none →
      (addComment (addComment exampleStore bob 11 (some "c1") none 50 100 9).2 carol 11
          (some "  r1 ") (some 50) 51 101 9).2.comments
        = (addComment exampleStore bob 11 (some "c1") none 50 100 9).2.comments
          ++ [⟨51, 3, 11, "r1", [], some 50, [], 9⟩]) ∧
    (addComment (addComment exampleStore bob 11 (some "c1") none 50 100 9).2 carol 11
        (some "  r1 ") (some 50) 51 101 9).2.posts
      = (addComment exampleStore bob 11 (some "c1") none 50 100 9).2.posts.map (fun x =>
          if x._id = 11 then
            { (⟨11, 1, "hello", [], true, [], [50], 6⟩ : Post) with
              comments := (⟨11, 1, "hello", [], true, [], [50], 6⟩ : Post).comments ++ [51] }
          else x) ∧
    (addComment (addComment exampleStore bob 11 (some "c1") none 50 100 9).2 carol 11
        (some "  r1 ") (some 50) 51 101 9).2.users
      = (addComment exampleStore bob 11 (some "c1") none 50 100 9).2.users :=
  addComment_effect (addComment exampleStore bob 11 (some "c1") none 50 100 9).2
    (addComment (addComment exampleStore bob 11 (some "c1") none 50 100 9).2 carol 11
      (some "  r1 ") (some 50) 51 101 9).2
    carol 11 (some "  r1 ") (some 50) 51 101 9 ⟨11, 1, "hello", [], true, [], [50], 6⟩
    ⟨51, 3, 11, "r1", [], some 50, [], 9⟩ (by decide) (by decide) (by decide)

/-- C21 (counterexample): comment 50 is on post 11; bob replies to it on post
12. The request succeeds and stores a reply on post 12 whose parent is on post
11. -/
theorem reply_parent_other_post :
    (addComment commentStore bob 12 (some "stray") (some 50) 52 102 9).1
      = .ok 201 ⟨52, 2, 12, "stray", [], some 50, [], 9⟩ ∧
    findCommentById commentStore 50 = some ⟨50, 2, 11, "c1", [], none, [51], 9⟩ ∧
    ¬ (∀ parent, findCommentById commentStore 50 = some parent → parent.post = 12) := by
  decide

/-- C21 (as the code behaves): a successful addComment with a parent id found
the parent comment stored, and stores the reply with that parent reference and
the post of the request; the post of the parent is not looked at. -/
theorem addComment_parent_exists (s s1 : State) (u : User) (postId : Id)
    (content : Option String) (parentId commentId notificationId now : Nat) (body : Comment)
    (hok : addComment s u postId content (some parentId) commentId notificationId now
      = (.ok 201 body, s1)) :
    (∃ parent, findCommentById s parentId = some parent) ∧
    body.parentComment = some parentId ∧ body.post = postId ∧
    (∀ otherPost, ∃ s2 body2,
      addComment { s with comments := s.comments.map (fun c =>
          if c._id = parentId then { c with post := otherPost } else c) }
        u postId content (some parentId) commentId notificationId now = (.ok 201 body2, s2)) := by
  cases hP : findPostById s postId with
  | none =>
    unfold addComment at hok
    by_cases h1 : contentMissing content = true
    · rw [if_pos h1] at hok; cases hok
    · rw [if_neg h1, hP] at hok; cases hok
  | some post =>
    obtain ⟨hcontent, hpar, hbody, -, -, -, -⟩ := addComment_ok_inv hP hok
    have hfound := hpar parentId rfl
    refine ⟨Option.isSome_iff_exists.mp hfound, by rw [hbody], by rw [hbody], ?_⟩
    intro otherPost
    have hvalid : commentContentValid (jsTrim (content.getD "")) = true := by
      unfold addComment at hok
      rw [if_neg (by simp [hcontent]), hP] at hok
      simp only at hok
      split at hok
      · cases hok
      · by_cases h3 : (!commentContentValid (jsTrim (content.getD ""))) = true
        · rw [if_pos h3] at hok; cases hok
        · simpa using h3
    have hfound2 : (findCommentById { s with comments := s.comments.map (fun c =>
        if c._id = parentId then { c with post := otherPost } else c) } parentId).isSome
        = true := by
      unfold findCommentById at hfound ⊢
      simp only [List.find?_map, Option.isSome_map']
      have hcomp : ((fun n : Comment => n._id == parentId) ∘ fun c : Comment =>
          if c._id = parentId then { c with post := otherPost } else c)
          = fun n : Comment => n._id == parentId := by
        funext c
        simp only [Function.comp]
        by_cases h : c._id = parentId
        · rw [if_pos h]
        · rw [if_neg h]
      rw [hcomp]
      exact hfound
    unfold addComment
    rw [if_neg (by simp [hcontent])]
    have hP2 : findPostById { s with comments := s.comments.map (fun c =>
        if c._id = parentId then { c with post := otherPost } else c) } postId = some post := hP
    rw [hP2]
    obtain ⟨c2, hc2⟩ := Option.isSome_iff_exists.mp hfound2
    simp only [hc2, Option.isNone_some, Bool.false_eq_true, if_false, hvalid, Bool.not_true]
    exact ⟨_, _, rfl⟩

theorem addComment_parent_exists_witness :
    (∃ parent, findCommentById commentStore 50 = some parent) ∧
    (⟨52, 2, 12, "stray", [], some 50, [], 9⟩ : Comment).parentComment = some 50 ∧
    (⟨52, 2, 12, "stray", [], some 50, [], 9⟩ : Comment).post = 12 ∧
    (∀ otherPost, ∃ s2 body2,
      addComment { commentStore with comments := commentStore.comments.map (fun c =>
          if c._id = 50 then { c with post := otherPost } else c) }
        bob 12 (some "stray") (some 50) 52 102 9 = (.ok 201 body2, s2)) :=
  addComment_parent_exists commentStore
    (addComment commentStore bob 12 (some "stray") (some 50) 52 102 9).2 bob 12
    (some "stray") 50 52 102 9 ⟨52, 2, 12, "stray", [], some 50, [], 9⟩ (by decide)

/-! ### Notifications -/

theorem find_map_replace {α : Type} (key : α → Id) (l : List α) (a : α) (id : Id)
    (ha : key a = id) (h : (l.find? (fun q => key q == id)).isSome = true) :
    (l.map (fun x => if key x = id then a else x)).find? (fun q => key q == id) = some a := by
  induction l with
  | nil => simp at h
  | cons x xs ih =>
    rw [List.map_cons]
    by_cases hx : key x = id
    · rw [if_pos hx, List.find?_cons_of_pos _ (by simpa using ha)]
    · rw [if_neg hx, List.find?_cons_of_neg _ (by simpa using hx)]
      rw [List.find?_cons_of_neg _ (by simpa using hx)] at h
      exact ih h

theorem findNotificationById_id {s : State} {id : Id} {n : Notification}
    (h : findNotificationById s id = some n) : n._id = id := by
  have := List.find?_some h
  simpa using this

theorem notifications_eraseP_eq_erase (l : List Notification) (id : Id) (n : Notification)
    (h : l.find? (fun q => q._id == id) = some n) :
    l.eraseP (fun q => q._id == id) = l.erase n := by
  induction l with
  | nil => simp at h
  | cons x xs ih =>
    by_cases hx : x._id = id
    · have hxn : x = n := by
        rw [List.find?_cons_of_pos _ (by simpa using hx)] at h
        exact Option.some.inj h
      subst hxn
      rw [List.eraseP_cons_of_pos (by simpa using hx), List.erase_cons_head]
    · rw [List.find?_cons_of_neg _ (by simpa using hx)] at h
      have hne : x ≠ n := fun e => hx (by
        have := List.find?_some h
        rw [e]; simpa using this)
      rw [List.eraseP_cons_of_neg (by simpa using hx), List.erase_cons_tail (by simpa using hne),
        ih h]

/-- A mark-as-read by the recipient: the response and the store. -/
theorem markNotificationRead_own (s : State) (reqUser : User) (nid : Id) (n : Notification)
    (hn : findNotificationById s nid = some n) (hown : n.recipient = reqUser._id) :
    markNotificationRead s reqUser nid
      = (.ok 200 { n with isRead := true },
         { s with
           notifications := s.notifications.map (fun x =>
             if x._id = nid then { n with isRead := true } else x) }) := by
  have hid := findNotificationById_id hn
  unfold markNotificationRead
  rw [hn]
  simp only [ne_eq, hown, not_true_eq_false, if_false, markAsRead, hid]

/-- C23: mark-as-read and delete of one notification answer 404 for an unknown
id and 403 to a user who is not its recipient, leaving the store unchanged; by
the recipient, mark-as-read sets `isRead` of that notification and nothing else
(a second application changes nothing more), and delete erases that
notification and nothing else. -/
theorem notification_single_ops (s : State) (reqUser : User) (nid : Id) :
    (findNotificationById s nid = none →
      markNotificationRead s reqUser nid = (.error 404 "Notification not found", s) ∧
      deleteNotification s reqUser nid = (.error 404 "Notification not found", s)) ∧
    (∀ n, findNotificationById s nid = some n → n.recipient ≠ reqUser._id →
      markNotificationRead s reqUser nid = (.error 403 "Not authorized", s) ∧
      deleteNotification s reqUser nid = (.error 403 "Not authorized", s)) ∧
    (∀ n, findNotificationById s nid = some n → n.recipient = reqUser._id →
      markNotificationRead s reqUser nid
        = (.ok 200 { n with isRead := true },
           { s with
             notifications := s.notifications.map (fun x =>
               if x._id = nid then { n with isRead := true } else x) }) ∧
      markNotificationRead (markNotificationRead s reqUser nid).2 reqUser nid
        = markNotificationRead s reqUser nid ∧
      deleteNotification s reqUser nid
        = (.ok 200 "Notification deleted successfully",
           { s with notifications := s.notifications.erase n })) := by
  refine ⟨?_, ?_, ?_⟩
  · intro h
    unfold markNotificationRead deleteNotification
    rw [h]
    exact ⟨rfl, rfl⟩
  · intro n hn hne
    unfold markNotificationRead deleteNotification
    rw [hn]
    simp [hne]
  · intro n hn hown
    have hid := findNotificationById_id hn
    have h1 := markNotificationRead_own s reqUser nid n hn hown
    refine ⟨h1, ?_, ?_⟩
    · rw [h1]
      have hsome : (s.notifications.find? (fun q => q._id == nid)).isSome = true := by
        unfold findNotificationById at hn
        rw [hn]; rfl
      have hfind : findNotificationById
          { s with notifications := s.notifications.map (fun x =>
              if x._id = nid then { n with isRead := true } else x) } nid
          = some { n with isRead := true } :=
        find_map_replace (fun q : Notification => q._id) s.notifications
          { n with isRead := true } nid hid hsome
      rw [markNotificationRead_own _ reqUser nid _ hfind hown]
      simp only [List.map_map]
      refine Prod.ext rfl ?_
      simp only
      congr 1
      apply List.map_congr_left
      intro x _
      simp only [Function.comp]
      by_cases hx : x._id = nid
      · simp [hx, hid]
      · simp [hx]
    · unfold deleteNotification
      rw [hn]
      simp only [ne_eq, hown, not_true_eq_false, if_false]
      unfold findNotificationById at hn
      rw [notifications_eraseP_eq_erase _ _ _ hn]

theorem notification_single_ops_witness :
    (markNotificationRead notifiedStore bob 100 = (.error 403 "Not authorized", notifiedStore) ∧
      deleteNotification notifiedStore bob 100
        = (.error 403 "Not authorized", notifiedStore)) ∧
    (markNotificationRead notifiedStore alice 100
        = (.ok 200 ⟨100, 1, 2, .like, some 11, none, true, "bob liked your post", 9⟩,
           { notifiedStore with
             notifications := notifiedStore.notifications.map (fun x =>
               if x._id = 100 then
                 ⟨100, 1, 2, .like, some 11, none, true, "bob liked your post", 9⟩
               else x) }) ∧
      markNotificationRead (markNotificationRead notifiedStore alice 100).2 alice 100
        = markNotificationRead notifiedStore alice 100 ∧
      deleteNotification notifiedStore alice 100
        = (.ok 200 "Notification deleted successfully",
           { notifiedStore with
             notifications := notifiedStore.notifications.erase
               ⟨100, 1, 2, .like, some 11, none, false, "bob liked your post", 9⟩ })) :=
  ⟨(notification_single_ops notifiedStore bob 100).2.1
      ⟨100, 1, 2, .like, some 11, none, false, "bob liked your post", 9⟩ (by decide)
      (by decide),
   (notification_single_ops notifiedStore alice 100).2.2
      ⟨100, 1, 2, .like, some 11, none, false, "bob liked your post", 9⟩ (by decide)
      (by decide)⟩

theorem filter_map_of_fixed {α : Type} (f : α → α) (p : α → Bool) (l : List α)
    (hp : ∀ x, p (f x) = p x) (hf : ∀ x, p x = true → f x = x) :
    (l.map f).filter p = l.filter p := by
  induction l with
  | nil => rfl
  | cons x xs ih =>
    rw [List.map_cons, List.filter_cons, List.filter_cons, hp x, ih]
    by_cases hx : p x = true
    · rw [if_pos hx, if_pos hx, hf x hx]
    · rw [if_neg hx, if_neg hx]

/-- C24: after mark-all-read for `U` every notification of `U` is read, the
unread count of `U` is 0 and the notifications are the same documents in the
same places; after delete-all for `U` no notification of `U` is left; in both
cases the notifications of other recipients, and the other collections, are
unchanged. -/
theorem notification_bulk_ops (s : State) (U : User) :
    (∀ n ∈ (markAllRead s U).2.notifications, n.recipient = U._id → n.isRead = true) ∧
    unreadCount (markAllRead s U).2 U = 0 ∧
    (markAllRead s U).2.notifications.map (fun n => n._id)
      = s.notifications.map (fun n => n._id) ∧
    (∀ n ∈ (deleteAllNotifications s U).2.notifications, n.recipient ≠ U._id) ∧
    (markAllRead s U).2.notifications.filter (fun n => n.recipient != U._id)
      = s.notifications.filter (fun n => n.recipient != U._id) ∧
    (deleteAllNotifications s U).2.notifications.filter (fun n => n.recipient != U._id)
      = s.notifications.filter (fun n => n.recipient != U._id) ∧
    ((markAllRead s U).2.users = s.users ∧ (markAllRead s U).2.posts = s.posts ∧
      (markAllRead s U).2.comments = s.comments) ∧
    ((deleteAllNotifications s U).2.users = s.users ∧
      (deleteAllNotifications s U).2.posts = s.posts ∧
      (deleteAllNotifications s U).2.comments = s.comments) := by
  have hread : ∀ n ∈ (markAllRead s U).2.notifications, n.recipient = U._id →
      n.isRead = true := by
    intro n hn hrec
    simp only [markAllRead, List.mem_map] at hn
    obtain ⟨m, _, rfl⟩ := hn
    by_cases hm : m.recipient = U._id ∧ m.isRead = false
    · rw [if_pos hm]
    · rw [if_neg hm] at hrec ⊢
      cases hr : m.isRead with
      | true => rfl
      | false => exact absurd ⟨hrec, hr⟩ hm
  refine ⟨hread, ?_, ?_, ?_, ?_, ?_, ⟨rfl, rfl, rfl⟩, ⟨rfl, rfl, rfl⟩⟩
  · unfold unreadCount
    rw [List.length_eq_zero, List.filter_eq_nil_iff]
    intro n hn
    by_cases hrec : n.recipient = U._id
    · simp [hread n hn hrec]
    · simp [hrec]
  · simp only [markAllRead, List.map_map]
    apply List.map_congr_left
    intro n _
    simp only [Function.comp]
    split <;> rfl
  · intro n hn
    simp only [deleteAllNotifications, List.mem_filter] at hn
    simpa using hn.2
  · simp only [markAllRead]
    apply filter_map_of_fixed
    · intro x
      split <;> rfl
    · intro x hx
      have hne : ¬ x.recipient = U._id := by simpa using hx
      rw [if_neg (fun h => hne h.1)]
  · simp only [deleteAllNotifications, List.filter_filter, Bool.and_self]

/-! ### Order of the writes -/

/-- The store a like request leaves is the store after its writes, in order. -/
theorem likePost_eq_writes (s : State) (u : User) (postId notificationId now : Nat) :
    (likePost s u postId notificationId now).2
      = (likePostWrites s u postId notificationId now).foldl applyWrite s := by
  unfold likePost likePostWrites
  cases hfind : findPostById s postId with
  | none => rfl
  | some post =>
    simp only
    cases hc : post.likes.contains u._id
    · by_cases hne : post.author ≠ u._id
      · simp only [Bool.false_eq_true, if_false, if_pos hne]
        rfl
      · simp only [Bool.false_eq_true, if_false, if_neg hne]
        rfl
    · rfl

theorem likeComment_eq_writes (s : State) (u : User) (commentId notificationId now : Nat) :
    (likeComment s u commentId notificationId now).2
      = (likeCommentWrites s u commentId notificationId now).foldl applyWrite s := by
  unfold likeComment likeCommentWrites
  cases hfind : findCommentById s commentId with
  | none => rfl
  | some comment =>
    simp only
    cases hc : comment.likes.contains u._id
    · by_cases hne : comment.author ≠ u._id
      · simp only [Bool.false_eq_true, if_false, if_pos hne]
        rfl
      · simp only [Bool.false_eq_true, if_false, if_neg hne]
        rfl
    · rfl

theorem addComment_eq_writes (s : State) (u : User) (postId : Id) (content : Option String)
    (parentCommentId : Option Id) (commentId notificationId now : Nat) :
    (addComment s u postId content parentCommentId commentId notificationId now).2
      = (addCommentWrites s u postId content parentCommentId commentId notificationId
          now).foldl applyWrite s := by
  unfold addComment addCommentWrites
  by_cases h1 : contentMissing content = true
  · rw [if_pos h1, if_pos h1]
    rfl
  · rw [if_neg h1, if_neg h1]
    cases hfind : findPostById s postId with
    | none => rfl
    | some post =>
      simp only
      split
      · rfl
      · by_cases h3 : (!commentContentValid (jsTrim (content.getD ""))) = true
        · rw [if_pos h3, if_pos h3]
          rfl
        · rw [if_neg h3, if_neg h3]
          by_cases hne : post.author ≠ u._id
          · rw [if_pos hne, if_pos hne]
            cases parentCommentId <;> rfl
          · rw [if_neg hne, if_neg hne]
            cases parentCommentId <;> rfl

/-- C22 (failing input): bob likes alice's post 11. The writes of the request
are the notification, its emit, and only then the save of the post; when that
save throws, the store holds (and the channel has sent) a notification for a
like that is not in the likes of the post. The comment like has the same order;
addComment writes the comment and its links first and the notification last. -/
theorem like_notification_precedes_save :
    likePostWrites exampleStore bob 11 100 9
      = [.insertNotification ⟨100, 1, 2, .like, some 11, none, false, "bob liked your post", 9⟩,
         .emit ⟨1, "notification",
           ⟨100, 1, 2, .like, some 11, none, false, "bob liked your post", 9⟩⟩,
         .savePost ⟨11, 1, "hello", [], true, [2], [], 6⟩] ∧
    (storeAtFailure exampleStore (likePostWrites exampleStore bob 11 100 9) 2).notifications
      = [⟨100, 1, 2, .like, some 11, none, false, "bob liked your post", 9⟩] ∧
    (storeAtFailure exampleStore (likePostWrites exampleStore bob 11 100 9) 2).emitted
      = [⟨1, "notification",
          ⟨100, 1, 2, .like, some 11, none, false, "bob liked your post", 9⟩⟩] ∧
    findPostById (storeAtFailure exampleStore (likePostWrites exampleStore bob 11 100 9) 2) 11
      = some ⟨11, 1, "hello", [], true, [], [], 6⟩ ∧
    likeCommentWrites commentStore alice 50 102 10
      = [.insertNotification
           ⟨102, 2, 1, .like, none, some 50, false, "alice liked your comment", 10⟩,
         .emit ⟨2, "notification",
           ⟨102, 2, 1, .like, none, some 50, false, "alice liked your comment", 10⟩⟩,
         .saveComment ⟨50, 2, 11, "c1", [1], none, [51], 9⟩] ∧
    addCommentWrites exampleStore bob 11 (some "c1") none 50 100 9
      = [.insertComment ⟨50, 2, 11, "c1", [], none, [], 9⟩,
         .savePost ⟨11, 1, "hello", [], true, [], [50], 6⟩,
         .insertNotification
           ⟨100, 1, 2, .comment, some 11, some 50, false, "bob commented on your post", 9⟩,
         .emit ⟨1, "notification",
           ⟨100, 1, 2, .comment, some 11, some 50, false, "bob commented on your post", 9⟩⟩] := by
  decide

/-! ### Route dispatch -/

theorem pathMatches_single_lit (text : String) (path : List String)
    (h : pathMatches [.lit text] path = true) : path = [text] := by
  rcases path with _ | ⟨seg, _ | ⟨seg2, rest⟩⟩
  · simp [pathMatches] at h
  · simp only [pathMatches, Bool.and_true, beq_iff_eq] at h
    rw [h]
  · simp [pathMatches] at h

/-- C25 (failing input): `DELETE /notifications/delete-all` is dispatched to the
single-notification delete (with `notificationId = "delete-all"`), and
`GET /users/suggested` to the user-by-id handler (with `userId = "suggested"`);
no request at all reaches the delete-all or the suggested-users handler. In
posts.js, where the literal routes are registered first, `/feed` and `/public`
reach their handlers. -/
theorem shadowed_routes :
    dispatch notificationRoutes .DELETE ["delete-all"] = some .deleteOne ∧
    dispatch userRoutes .GET ["suggested"] = some .byId ∧
    (∀ method path, dispatch notificationRoutes method path ≠ some .deleteAll) ∧
    (∀ method path, dispatch userRoutes method path ≠ some .suggested) ∧
    dispatch postRoutes .GET ["feed"] = some .feed ∧
    dispatch postRoutes .GET ["public"] = some .publicFeed := by
  have h1 : dispatch notificationRoutes .DELETE ["delete-all"] = some .deleteOne := by decide
  have h2 : dispatch userRoutes .GET ["suggested"] = some .byId := by decide
  refine ⟨h1, h2, ?_, ?_, by decide, by decide⟩
  · intro method path h
    have h0 := h
    unfold dispatch at h
    cases hf : notificationRoutes.find?
        (fun r => r.method == method && pathMatches r.path path) with
    | none => rw [hf] at h; cases h
    | some r =>
      rw [hf] at h
      have hh : r.handler = .deleteAll := Option.some.inj h
      have hmem := List.mem_of_find?_eq_some hf
      have hp := List.find?_some hf
      simp only [notificationRoutes, List.mem_cons, List.mem_singleton, List.not_mem_nil,
        or_false] at hmem
      rcases hmem with rfl | rfl | rfl | rfl | rfl | rfl
      · cases hh
      · cases hh
      · cases hh
      · cases hh
      · cases hh
      · simp only [Bool.and_eq_true, beq_iff_eq] at hp
        have hpath := pathMatches_single_lit _ _ hp.2
        rw [← hp.1, hpath, h1] at h0
        cases h0
  · intro method path h
    have h0 := h
    unfold dispatch at h
    cases hf : userRoutes.find?
        (fun r => r.method == method && pathMatches r.path path) with
    | none => rw [hf] at h; cases h
    | some r =>
      rw [hf] at h
      have hh : r.handler = .suggested := Option.some.inj h
      have hmem := List.mem_of_find?_eq_some hf
      have hp := List.find?_some hf
      simp only [userRoutes, List.mem_cons, List.mem_singleton, List.not_mem_nil,
        or_false] at hmem
      rcases hmem with rfl | rfl | rfl | rfl | rfl | rfl | rfl
      · cases hh
      · cases hh
      · cases hh
      · cases hh
      · cases hh
      · cases hh
      · simp only [Bool.and_eq_true, beq_iff_eq] at hp
        have hpath := pathMatches_single_lit _ _ hp.2
        rw [← hp.1, hpath, h2] at h0
        cases h0

/-! ### The like button -/

/-- After a failed like request the count is back to its value but `liked` is
the negation of what it was. -/
theorem handleLike_failure (st : LikeState) :
    (handleLike true st none).likeCount = st.likeCount ∧
    (handleLike true st none).liked = !st.liked := by
  unfold handleLike
  cases h : st.liked <;> simp [h]

/-- C30 (failing input): from `liked = false`, `likeCount = 0` a click whose
request fails leaves `liked = true` (with `likeCount = 0`); from
`liked = true`, `likeCount = 1` it leaves `liked = false`. -/
theorem handleLike_does_not_revert_liked :
    handleLike true ⟨false, 0⟩ none = ⟨true, 0⟩ ∧
    handleLike true ⟨true, 1⟩ none = ⟨false, 1⟩ := by
  decide

/-! ### Suggested users -/

/-- The suggested users are at most 5 stored users, none of them the viewer or
followed by the viewer. -/
theorem suggestedUsers_excludes (s : State) (currentUser : User) :
    ∃ users, suggestedUsers s currentUser = .ok 200 users ∧ users.length ≤ 5 ∧
      ∀ u ∈ users, u ∈ s.users ∧ u._id ≠ currentUser._id ∧ u._id ∉ currentUser.following := by
  refine ⟨_, rfl, List.length_take_le _ _, ?_⟩
  intro u hu
  have h1 := List.mem_of_mem_take hu
  have h2 := (List.perm_insertionSort _ _).mem_iff.mp h1
  rw [List.mem_filter] at h2
  refine ⟨h2.1, ?_, ?_⟩
  · intro h
    have := h2.2
    simp [h] at this
  · intro h
    have := h2.2
    simp [h] at this

/-- C26 (failing input): in `popularStore` user 1 is suggested users 3 to 7
(one follower each) and not user 2, who has three followers and is neither user
1 nor followed by user 1; user 6 is suggested 3, 4, 5, 7, 2 in that order,
follower counts 1, 1, 1, 1, 3. -/
theorem suggestedUsers_not_by_count :
    (∃ users, suggestedUsers popularStore ⟨1, "u1", "u1@x.com", "", [], []⟩ = .ok 200 users ∧
      users.map (fun u => u._id) = [3, 4, 5, 6, 7] ∧
      users.map (fun u => u.followers.length) = [1, 1, 1, 1, 1]) ∧
    (⟨2, "u2", "u2@x.com", "", [], [3, 4, 5]⟩ : User) ∈ popularStore.users ∧
    (∃ users, suggestedUsers popularStore ⟨6, "u6", "u6@x.com", "", [], [8]⟩ = .ok 200 users ∧
      users.map (fun u => u._id) = [3, 4, 5, 7, 2] ∧
      users.map (fun u => u.followers.length) = [1, 1, 1, 1, 3]) := by
  refine ⟨⟨_, rfl, by decide, by decide⟩, by decide, ⟨_, rfl, by decide, by decide⟩⟩

/-! ### Register and profile update -/

theorem register_taken (valid : String → String → String → Bool) (s : State)
    (username email password : String) (userId : Id) (existing : User)
    (h : s.users.find? (fun u => u.email == email || u.username == username) = some existing) :
    register valid s username email password userId
      = (.error 400
          (if existing.email = email then "Email already registered"
           else "Username already taken"), s) := by
  unfold register
  rw [h]

theorem register_free (valid : String → String → String → Bool) (s : State)
    (username email password : String) (userId : Id)
    (h : s.users.find? (fun u => u.email == email || u.username == username) = none) :
    register valid s username email password userId
      = (if !valid username email password then (.error 500 "Server error", s)
         else (.ok 201 ⟨userId, username, email, "", [], []⟩,
               { s with users := s.users ++ [⟨userId, username, email, "", [], []⟩] })) := by
  unfold register
  rw [h]

theorem register_distinct (valid : String → String → String → Bool) (s : State)
    (username email password : String) (userId : Id) (hd : identitiesDistinct s) :
    identitiesDistinct (register valid s username email password userId).2 := by
  cases hfind : s.users.find? (fun u => u.email == email || u.username == username) with
  | some existing =>
    rw [register_taken valid s username email password userId existing hfind]
    exact hd
  | none =>
    rw [register_free valid s username email password userId hfind]
    by_cases hv : (!valid username email password) = true
    · rw [if_pos hv]
      exact hd
    · rw [if_neg hv]
      rw [List.find?_eq_none] at hfind
      unfold identitiesDistinct at hd ⊢
      simp only [List.map_append, List.map_cons, List.map_nil]
      constructor
      · refine List.Nodup.append hd.1 (List.nodup_singleton _) ?_
        rw [List.disjoint_singleton]
        simp only [List.mem_map, not_exists, not_and]
        intro u hu hname
        exact hfind u hu (by simp [hname])
      · refine List.Nodup.append hd.2 (List.nodup_singleton _) ?_
        rw [List.disjoint_singleton]
        simp only [List.mem_map, not_exists, not_and]
        intro u hu hmail
        exact hfind u hu (by simp [hmail])

theorem updateProfile_taken (validUser : User → Bool) (s : State) (user : User)
    (n : String) (bio : Option String) (hempty : n.isEmpty = false) (hne : n ≠ user.username)
    (hheld : ∃ u ∈ s.users, u.username = n) :
    updateProfile validUser s user (some n) bio = (.error 400 "Username already taken", s) := by
  obtain ⟨u, hu, hname⟩ := hheld
  have hfound : (s.users.find? (fun u => u.username == n)).isSome = true := by
    rw [List.find?_isSome]
    exact ⟨u, hu, by simp [hname]⟩
  unfold updateProfile
  simp only [hempty, Bool.not_false, Bool.true_and, bne_iff_ne, ne_eq, hne, not_false_eq_true,
    if_true, hfound]

/-- The store after a profile update is the old one, or the old one with the
documents of the caller's id replaced by a user that keeps the caller's id,
email and follow lists and whose new username, when it differs from the
caller's, is held by no stored user. -/
theorem updateProfile_store (validUser : User → Bool) (s : State) (user : User)
    (username bio : Option String) :
    (updateProfile validUser s user username bio).2 = s ∨
    ∃ user2 : User, (updateProfile validUser s user username bio).2
        = { s with users := saveUser s.users user2 } ∧
      user2._id = user._id ∧ user2.email = user.email ∧
      (user2.username = user.username ∨ ∀ u ∈ s.users, u.username ≠ user2.username) := by
  unfold updateProfile
  simp only
  split
  · exact Or.inl rfl
  · rename_i hex
    split
    · exact Or.inl rfl
    · right
      refine ⟨_, rfl, ?_, ?_, ?_⟩
      · cases username with
        | none => cases bio <;> rfl
        | some n => cases bio <;> (simp only; split <;> rfl)
      · cases username with
        | none => cases bio <;> rfl
        | some n => cases bio <;> (simp only; split <;> rfl)
      · cases username with
        | none => left; cases bio <;> rfl
        | some n =>
          simp only at hex
          by_cases hempty : n.isEmpty = true
          · left
            cases bio <;> simp [hempty]
          · by_cases hsame : n = user.username
            · left
              cases bio <;> simp [hempty, hsame]
            · right
              have hnone : s.users.find? (fun u => u.username == n) = none := by
                simp only [hempty, Bool.not_false, Bool.not_true, Bool.true_and, bne_iff_ne,
                  ne_eq, hsame, not_false_eq_true, if_true, Bool.not_eq_true,
                  Option.not_isSome, Option.isNone_iff_eq_none, decide_True] at hex
                exact hex
              rw [List.find?_eq_none] at hnone
              intro u hu
              have := hnone u hu
              cases bio <;> simpa [hempty] using this

theorem updateProfile_distinct (validUser : User → Bool) (s : State) (user : User)
    (username bio : Option String) (hstored : findUserById s user._id = some user)
    (hids : uniqueUserIds s) (hd : identitiesDistinct s) :
    identitiesDistinct (updateProfile validUser s user username bio).2 := by
  rcases updateProfile_store validUser s user username bio with h | ⟨user2, h, hid, hmail, hname⟩
  · rw [h]; exact hd
  · rw [h]
    have hmem := findUserById_mem hstored
    have hnd : s.users.Nodup := List.Nodup.of_map _ hids
    have hself : ∀ x ∈ s.users, x._id = user2._id → x = user := fun x hx hx2 =>
      eq_of_mem_of_id_eq hids hx hmem (hx2.trans hid)
    unfold identitiesDistinct at hd ⊢
    simp only [saveUser, List.map_map]
    constructor
    · apply List.Nodup.map_on _ hnd
      intro x hx y hy hxy
      simp only [Function.comp] at hxy
      by_cases hx2 : x._id = user2._id
      · by_cases hy2 : y._id = user2._id
        · rw [hself x hx hx2, hself y hy hy2]
        · rw [if_pos hx2, if_neg hy2] at hxy
          rcases hname with hn | hn
          · have hxu := hself x hx hx2
            rw [hn] at hxy
            rw [hxu]
            exact List.inj_on_of_nodup_map hd.1 hmem hy hxy
          · exact absurd hxy.symm (hn y hy)
      · by_cases hy2 : y._id = user2._id
        · rw [if_neg hx2, if_pos hy2] at hxy
          rcases hname with hn | hn
          · have hyu := hself y hy hy2
            rw [hn] at hxy
            rw [hyu]
            exact List.inj_on_of_nodup_map hd.1 hx hmem hxy
          · exact absurd hxy (hn x hx)
        · rw [if_neg hx2, if_neg hy2] at hxy
          exact List.inj_on_of_nodup_map hd.1 hx hy hxy
    · have hsame : s.users.map ((fun u : User => u.email) ∘ fun x =>
          if x._id = user2._id then user2 else x) = s.users.map (fun u => u.email) := by
        apply List.map_congr_left
        intro x hx
        simp only [Function.comp]
        by_cases hx2 : x._id = user2._id
        · rw [if_pos hx2, hmail, hself x hx hx2]
        · rw [if_neg hx2]
      rw [hsame]
      exact hd.2

/-- C28: with pairwise distinct usernames and emails, register answers 400 and
stores nothing exactly when a stored user has the submitted email or username
(`Email already registered` when the matched user has that email, otherwise
`Username already taken`), and the identities stay distinct after register;
updateProfile answers 400 and changes nothing when the new username differs
from the caller's and is held by a stored user, and (for the stored caller, ids
being unique) the identities stay distinct after it. -/
theorem identity_uniqueness (valid : String → String → String → Bool)
    (validUser : User → Bool) (s : State) (hd : identitiesDistinct s) :
    (∀ username email password userId,
      ((∃ u ∈ s.users, u.email = email ∨ u.username = username) ↔
        ∃ msg, register valid s username email password userId = (.error 400 msg, s)) ∧
      ((∃ u ∈ s.users, u.email = email ∨ u.username = username) ↔
        ∃ msg, (register valid s username email password userId).1 = .error 400 msg) ∧
      (∀ existing,
        s.users.find? (fun u => u.email == email || u.username == username) = some existing →
        register valid s username email password userId
          = (.error 400
              (if existing.email = email then "Email already registered"
               else "Username already taken"), s)) ∧
      identitiesDistinct (register valid s username email password userId).2) ∧
    (∀ user n bio, n.isEmpty = false → n ≠ user.username →
      (∃ u ∈ s.users, u.username = n) →
      updateProfile validUser s user (some n) bio
        = (.error 400 "Username already taken", s)) ∧
    (∀ user username bio, findUserById s user._id = some user → uniqueUserIds s →
      identitiesDistinct (updateProfile validUser s user username bio).2) := by
  refine ⟨?_, ?_, ?_⟩
  · intro username email password userId
    have key : (∃ u ∈ s.users, u.email = email ∨ u.username = username) ↔
        ∃ msg, (register valid s username email password userId).1 = .error 400 msg := by
      cases hfind : s.users.find? (fun u => u.email == email || u.username == username) with
      | some existing =>
        rw [register_taken valid s username email password userId existing hfind]
        constructor
        · intro _
          exact ⟨_, rfl⟩
        · intro _
          have hm := List.mem_of_find?_eq_some hfind
          have hp := List.find?_some hfind
          exact ⟨existing, hm, by simpa using hp⟩
      | none =>
        rw [register_free valid s username email password userId hfind]
        rw [List.find?_eq_none] at hfind
        constructor
        · rintro ⟨u, hu, h⟩
          exact absurd (by simpa using h) (hfind u hu)
        · rintro ⟨msg, h⟩
          split at h
          · injection h with h1 _
            cases h1
          · cases h
    refine ⟨?_, key, ?_, register_distinct valid s username email password userId hd⟩
    · rw [key]
      constructor
      · rintro ⟨msg, h⟩
        cases hfind : s.users.find? (fun u => u.email == email || u.username == username) with
        | some existing =>
          exact ⟨_, register_taken valid s username email password userId existing hfind⟩
        | none =>
          rw [register_free valid s username email password userId hfind] at h
          split at h
          · injection h with h1 _
            cases h1
          · cases h
      · rintro ⟨msg, h⟩
        exact ⟨msg, by rw [h]⟩
    · intro existing hfind
      exact register_taken valid s username email password userId existing hfind
  · intro user n bio hn hne hheld
    exact updateProfile_taken validUser s user n bio hn hne hheld
  · intro user username bio hstored hids
    exact updateProfile_distinct validUser s user username bio hstored hids hd

theorem identity_uniqueness_witness :
    (register (fun _ _ _ => true) exampleStore "dave" "a@x.com" "pw" 4
        = (.error 400 "Email already registered", exampleStore)) ∧
    (register (fun _ _ _ => true) exampleStore "bob" "d@x.com" "pw" 4
        = (.error 400 "Username already taken", exampleStore)) ∧
    identitiesDistinct (register (fun _ _ _ => true) exampleStore "dave" "d@x.com" "pw" 4).2 ∧
    (updateProfile (fun _ => true) exampleStore bob (some "alice") none
        = (.error 400 "Username already taken", exampleStore)) ∧
    identitiesDistinct (updateProfile (fun _ => true) exampleStore bob (some "robert") none).2 :=
  ⟨((identity_uniqueness (fun _ _ _ => true) (fun _ => true) exampleStore (by decide)).1
      "dave" "a@x.com" "pw" 4).2.2.1 alice (by decide),
   ((identity_uniqueness (fun _ _ _ => true) (fun _ => true) exampleStore (by decide)).1
      "bob" "d@x.com" "pw" 4).2.2.1 bob (by decide),
   ((identity_uniqueness (fun _ _ _ => true) (fun _ => true) exampleStore (by decide)).1
      "dave" "d@x.com" "pw" 4).2.2.2,
   (identity_uniqueness (fun _ _ _ => true) (fun _ => true) exampleStore (by decide)).2.1
      bob "alice" none (by decide) (by decide) ⟨alice, by decide, rfl⟩,
   (identity_uniqueness (fun _ _ _ => true) (fun _ => true) exampleStore (by decide)).2.2
      bob (some "robert") none (by decide) (by decide)⟩

/-! ### Interleaved like requests -/

/-- C29 (counterexample): users 1 and 2 both like the post and both ask to
unlike it; both requests read before either saves. If a save overwrites, the
second save restores the like of user 1; if saves are versioned, the second save
is rejected and the like of user 2 stays. One after the other, the two requests
leave no like. -/
theorem concurrent_unlikes_lose_update :
    runLikes .overwrite 1 2 ⟨[1, 2], 0⟩ [.readFirst, .readSecond, .saveFirst, .saveSecond]
      = [1] ∧
    runLikes .versioned 1 2 ⟨[1, 2], 0⟩ [.readFirst, .readSecond, .saveFirst, .saveSecond]
      = [2] ∧
    toggleAll [1, 2] [1, 2] = [] ∧ toggleAll [1, 2] [2, 1] = [] := by
  decide

theorem saveLike_readLike (sem : SaveSemantics) (d : LikesDoc) (u : Id) :
    (saveLike sem d (readLike d u)).likes = toggled d.likes (d.likes.contains u) u := by
  cases sem with
  | overwrite => rfl
  | versioned =>
    unfold saveLike readLike
    cases hc : d.likes.contains u
    · simp [toggled]
    · simp [toggled]

/-- C29 (as the code behaves): when the read, change and save of one request
complete before the read of the other, the stored likes are those of the two
toggles run one after the other in that order, under either behaviour of
`save`; for a stored post this is the list two successive like requests of the
handler leave. -/
theorem serial_likes_equal_sequential (sem : SaveSemantics) (u v : Id) (d : LikesDoc) :
    runLikes sem u v d [.readFirst, .saveFirst, .readSecond, .saveSecond]
      = toggleAll d.likes [u, v] ∧
    runLikes sem u v d [.readSecond, .saveSecond, .readFirst, .saveFirst]
      = toggleAll d.likes [v, u] ∧
    (∀ (s : State) (postId : Id) (P : Post) (c1 c2 : LikeCall),
      findPostById s postId = some P → P.likes = d.likes →
      c1.currentUser._id = u → c2.currentUser._id = v →
      ∃ P1, findPostById (likePostSeq s postId [c1, c2]) postId = some P1 ∧
        P1.likes = runLikes sem u v d [.readFirst, .saveFirst, .readSecond, .saveSecond]) := by
  have h1 : runLikes sem u v d [.readFirst, .saveFirst, .readSecond, .saveSecond]
      = toggleAll d.likes [u, v] := by
    simp only [runLikes, List.foldl, stepLikes, toggleAll]
    rw [saveLike_readLike, saveLike_readLike]
  refine ⟨h1, ?_, ?_⟩
  · simp only [runLikes, List.foldl, stepLikes, toggleAll]
    rw [saveLike_readLike, saveLike_readLike]
  · intro s postId P c1 c2 hP hlikes hu hv
    have hfind := likePostSeq_find postId [c1, c2] s P hP
    refine ⟨_, hfind, ?_⟩
    rw [h1]
    simp only [List.map_cons, List.map_nil, hu, hv, hlikes]

/-! ### Search -/

theorem parsePattern_literal (cs : List Char) (h : ∀ c ∈ cs, isRegexMeta c = false) :
    parsePattern cs = some (cs.map RegexAtom.lit) := by
  induction cs with
  | nil => rfl
  | cons c cs ih =>
    have hc := h c (List.mem_cons_self _ _)
    have hdot : (c.toNat == 46) = false := by
      cases hd : (c.toNat == 46) with
      | false => rfl
      | true =>
        have h46 : c.toNat = 46 := by simpa using hd
        simp [isRegexMeta, h46] at hc
    unfold parsePattern
    rw [hdot, hc, ih (fun x hx => h x (List.mem_cons_of_mem _ hx))]
    rfl

theorem matchesHere_literal (q : List Char) : ∀ cs : List Char,
    (matchesHere (q.map RegexAtom.lit) cs = true ↔
      ∃ mid after, cs = mid ++ after ∧ mid.map Char.toLower = q.map Char.toLower) := by
  induction q with
  | nil =>
    intro cs
    simp only [List.map_nil, matchesHere, true_iff]
    exact ⟨[], cs, rfl, rfl⟩
  | cons a q ih =>
    intro cs
    cases cs with
    | nil =>
      simp only [List.map_cons, matchesHere, Bool.false_eq_true, false_iff]
      rintro ⟨mid, after, h1, h2⟩
      have hmid : mid = [] := by
        cases mid with
        | nil => rfl
        | cons m ms => cases h1
      rw [hmid] at h2
      cases h2
    | cons c cs =>
      simp only [List.map_cons, matchesHere, atomMatches, Bool.and_eq_true, beq_iff_eq]
      rw [ih cs]
      constructor
      · rintro ⟨hac, mid, after, h1, h2⟩
        exact ⟨c :: mid, after, by rw [h1]; rfl, by simp [h2, hac]⟩
      · rintro ⟨mid, after, h1, h2⟩
        cases mid with
        | nil => cases h2
        | cons m ms =>
          simp only [List.cons_append, List.cons.injEq] at h1
          simp only [List.map_cons, List.cons.injEq] at h2
          refine ⟨?_, ms, after, h1.2, h2.2⟩
          rw [h1.1]
          exact h2.1.symm

theorem regexSearch_iff (atoms : List RegexAtom) (text : List Char) :
    regexSearch atoms text = true ↔
      ∃ before rest, text = before ++ rest ∧ matchesHere atoms rest = true := by
  induction text with
  | nil =>
    simp only [regexSearch]
    constructor
    · intro h
      exact ⟨[], [], rfl, h⟩
    · rintro ⟨before, rest, h1, h2⟩
      have hrest : rest = [] := by
        cases rest with
        | nil => rfl
        | cons r rs => cases before <;> cases h1
      rw [hrest] at h2
      exact h2
  | cons c cs ih =>
    simp only [regexSearch, Bool.or_eq_true]
    rw [ih]
    constructor
    · rintro (h | ⟨before, rest, h1, h2⟩)
      · exact ⟨[], c :: cs, rfl, h⟩
      · exact ⟨c :: before, rest, by rw [h1]; rfl, h2⟩
    · rintro ⟨before, rest, h1, h2⟩
      cases before with
      | nil =>
        left
        simp only [List.nil_append] at h1
        rw [h1]
        exact h2
      | cons b bs =>
        right
        simp only [List.cons_append, List.cons.injEq] at h1
        exact ⟨bs, rest, h1.2, h2⟩

/-- For a pattern of literal characters the search is the substring test up to
case. -/
theorem regexSearch_literal (q text : String) :
    regexSearch (q.data.map RegexAtom.lit) text.data = true ↔ containsIgnoreCase text q := by
  rw [regexSearch_iff]
  unfold containsIgnoreCase
  constructor
  · rintro ⟨before, rest, h1, h2⟩
    obtain ⟨mid, after, h3, h4⟩ := (matchesHere_literal q.data rest).mp h2
    exact ⟨before, mid, after, by rw [h1, h3, List.append_assoc], h4⟩
  · rintro ⟨before, mid, after, h1, h2⟩
    exact ⟨before, mid ++ after, by rw [h1, List.append_assoc],
      (matchesHere_literal q.data _).mpr ⟨mid, after, rfl, h2⟩⟩

/-- C27 (counterexample): the query `b.b` returns bob, whose username and bio
do not contain `b.b`. -/
theorem searchUsers_query_is_pattern :
    searchUsers exampleStore "b.b" = some (.ok 200 [bob]) ∧
    ¬ containsIgnoreCase bob.username "b.b" ∧ ¬ containsIgnoreCase bob.bio "b.b" := by
  refine ⟨by decide, ?_, ?_⟩
  · intro h
    have := (regexSearch_literal "b.b" bob.username).mpr h
    revert this
    decide
  · intro h
    have := (regexSearch_literal "b.b" bob.bio).mpr h
    revert this
    decide

/-- C27 (as the code behaves): for a query without regular-expression
metacharacters the search returns at most 10 stored users, each with the query
contained in its username or bio up to case; and when no more than 10 stored
users match, it returns exactly the matching users, in collection order. -/
theorem searchUsers_literal (s : State) (q : String)
    (hq : ∀ c ∈ q.data, isRegexMeta c = false) :
    ∃ users, searchUsers s q = some (.ok 200 users) ∧ users.length ≤ 10 ∧
      users.Sublist s.users ∧
      (∀ u ∈ users, containsIgnoreCase u.username q ∨ containsIgnoreCase u.bio q) ∧
      ((∀ l : List User, l.Sublist s.users →
          (∀ u ∈ l, containsIgnoreCase u.username q ∨ containsIgnoreCase u.bio q) →
          l.length ≤ 10) →
        ∀ u, u ∈ users ↔
          u ∈ s.users ∧ (containsIgnoreCase u.username q ∨ containsIgnoreCase u.bio q)) := by
  have hpred : ∀ u : User,
      (regexSearch (q.data.map RegexAtom.lit) u.username.data ||
        regexSearch (q.data.map RegexAtom.lit) u.bio.data) = true ↔
      (containsIgnoreCase u.username q ∨ containsIgnoreCase u.bio q) := by
    intro u
    rw [Bool.or_eq_true, regexSearch_literal, regexSearch_literal]
  have hres : searchUsers s q = some (.ok 200
      ((s.users.filter (fun u =>
        regexSearch (q.data.map RegexAtom.lit) u.username.data ||
          regexSearch (q.data.map RegexAtom.lit) u.bio.data)).take 10)) := by
    unfold searchUsers
    rw [parsePattern_literal q.data hq]
    rfl
  refine ⟨_, hres, List.length_take_le _ _, ?_, ?_, ?_⟩
  · exact (List.take_sublist _ _).trans (List.filter_sublist _)
  · intro u hu
    have h1 := List.mem_of_mem_take hu
    exact (hpred u).mp (List.mem_filter.mp h1).2
  · intro hfew u
    have hlen := hfew _ (List.filter_sublist _)
      (fun u hu => (hpred u).mp (List.mem_filter.mp hu).2)
    rw [List.take_of_length_le hlen, List.mem_filter, hpred]

theorem searchUsers_literal_witness :
    ∃ users, searchUsers exampleStore "BO" = some (.ok 200 users) ∧ users.length ≤ 10 ∧
      users.Sublist exampleStore.users ∧
      (∀ u ∈ users, containsIgnoreCase u.username "BO" ∨ containsIgnoreCase u.bio "BO") ∧
      ((∀ l : List User, l.Sublist exampleStore.users →
          (∀ u ∈ l, containsIgnoreCase u.username "BO" ∨ containsIgnoreCase u.bio "BO") →
          l.length ≤ 10) →
        ∀ u, u ∈ users ↔
          u ∈ exampleStore.users ∧
            (containsIgnoreCase u.username "BO" ∨ containsIgnoreCase u.bio "BO")) :=
  searchUsers_literal exampleStore "BO" (by decide)

end SocialMediaLite
